import Mathlib

/-!
# article-api: the cache-aside article repository

A shallow embedding of `internal/repository/article_repository.go`,
`internal/cache/mock.go`, the types of `internal/models/article.go` and
`internal/repository/interfaces.go`, the create handler and the parameter
parsing of `internal/handlers/article_handler.go`, `internal/config/config.go`
and the migration runner of `internal/migration/migrate.go`, followed by the
properties established about them.

Conventions of the embedding:

* Go `int` is a 64-bit two's complement integer.  It is embedded as `Int`,
  and the one arithmetic expression that can overflow, `(Page - 1) * Limit`,
  is reduced with `wrap64`.
* `time.Time` values and `time.Now().UnixNano()` are embedded as `Int`
  (nanoseconds); the clock readings are arguments of the operations.
* The relational store is an explicit state (`Store`) with the two tables the
  repository reads and writes; every operation returns the new state.  A
  handle `DB` pairs the store with the failure, if any, that its statements
  meet for reasons outside the tables (a lost connection, a driver error).
* The cache is a capability record (`CacheServiceInterface`) over an explicit
  cache state, with `MockCacheService` as its in-memory instance.
-/

namespace ArticleApi

/-! ## Machine integers -/

/-- Reduction of a mathematical integer to the value a Go `int` (64 bits,
two's complement) holds after the same arithmetic. -/
def wrap64 (x : Int) : Int := (x + 2 ^ 63) % 2 ^ 64 - 2 ^ 63

/-- The values a Go `int` can hold. -/
def InInt64 (x : Int) : Prop := -(2 ^ 63) ≤ x ∧ x < 2 ^ 63

instance (x : Int) : Decidable (InInt64 x) := by
  unfold InInt64; infer_instance

/-! ## Data model (`internal/models/article.go`, `internal/repository/interfaces.go`) -/

/-- Go `models.Author`. -/
structure Author where
  ID : String
  Name : String
deriving DecidableEq, Repr

/-- Go `models.Article`; `Author` is the optional embedded author pointer. -/
structure Article where
  ID : String
  AuthorID : String
  Title : String
  Body : String
  CreatedAt : Int
  Author : Option Author
deriving DecidableEq, Repr

/-- Go `models.ArticleListItem`: an article without its body. -/
structure ArticleListItem where
  ID : String
  AuthorID : String
  Title : String
  CreatedAt : Int
  Author : Option Author
deriving DecidableEq, Repr

/-- Go `models.CreateArticleRequest`. -/
structure CreateArticleRequest where
  AuthorID : String
  Title : String
  Body : String
deriving DecidableEq, Repr

/-- Go `repository.ListArticlesParams`. -/
structure ListArticlesParams where
  Search : String
  AuthorName : String
  Page : Int
  Limit : Int
deriving DecidableEq, Repr

/-- Go `repository.ListArticlesResult`. -/
structure ListArticlesResult where
  Articles : List ArticleListItem
  Total : Int
  Page : Int
  Limit : Int
deriving DecidableEq, Repr

/-! ## Query construction in `ListArticles` -/

/-- A value bound to a positional placeholder (`interface{}` in `args`):
the repository binds strings (patterns) and ints (limit, offset). -/
inductive Arg where
  | str (s : String)
  | int (i : Int)
deriving DecidableEq, Repr

/-- The two condition templates `ListArticles` appends to `whereConditions`,
each with the placeholder index substituted for `%d`. -/
inductive Cond where
  /-- Template `(a.title ILIKE $i OR a.body ILIKE $i)`. -/
  | search (i : Nat)
  /-- Template `au.name ILIKE $i`. -/
  | author (i : Nat)
deriving DecidableEq, Repr

/-- The SQL text of a condition, as `fmt.Sprintf` produces it. -/
def Cond.render : Cond → String
  | .search i => "(a.title ILIKE $" ++ toString i ++ " OR a.body ILIKE $" ++ toString i ++ ")"
  | .author i => "au.name ILIKE $" ++ toString i

/-- Everything `ListArticles` computes before it talks to the store. -/
structure QueryPlan where
  /-- Field `params.Page` after the defaults. -/
  Page : Int
  /-- Field `params.Limit` after the defaults. -/
  Limit : Int
  /-- Local `offset := (params.Page - 1) * params.Limit`. -/
  offset : Int
  whereConditions : List Cond
  /-- Slice `args` as passed to the count query. -/
  args : List Arg
  /-- Counter `argIndex` after the filters. -/
  argIndex : Nat
  whereClause : String
  countQuery : String
  articlesQuery : String
  /-- Slice `args` after `append(args, params.Limit, offset)`, as passed to the page query. -/
  pageArgs : List Arg
deriving DecidableEq, Repr

/-- The `Page` default: `if params.Page <= 0 { params.Page = 1 }`. -/
def normPage (page : Int) : Int := if page ≤ 0 then 1 else page

/-- The `Limit` defaults: `if params.Limit <= 0 { 10 }`, then
`if params.Limit > 100 { 100 }`. -/
def normLimit (limit : Int) : Int :=
  let l := if limit ≤ 0 then 10 else limit
  if l > 100 then 100 else l

/-- The `WHERE` clause: empty without conditions, otherwise the conditions
joined by `" AND "` after `"WHERE "`. -/
def renderWhere (conds : List Cond) : String :=
  if conds.length > 0 then "WHERE " ++ " AND ".intercalate (conds.map Cond.render) else ""

/-- The text of the count query. -/
def renderCountQuery (whereClause : String) : String :=
  "\n\t\tSELECT COUNT(*)\n\t\tFROM articles a\n\t\tLEFT JOIN authors au ON a.author_id = au.id\n\t\t"
    ++ whereClause ++ "\n\t"

/-- The text of the page query. -/
def renderArticlesQuery (whereClause : String) (limitIdx offsetIdx : Nat) : String :=
  "\n\t\tSELECT \n\t\t\ta.id, \n\t\t\ta.author_id, \n\t\t\ta.title, \n\t\t\ta.created_at,\n\t\t\tau.id as author_id,\n\t\t\tau.name as author_name\n\t\tFROM articles a\n\t\tLEFT JOIN authors au ON a.author_id = au.id\n\t\t"
    ++ whereClause ++ "\n\t\tORDER BY a.created_at DESC\n\t\tLIMIT $" ++ toString limitIdx
    ++ " OFFSET $" ++ toString offsetIdx ++ "\n\t"

/-- The part of `ListArticles` up to the two store calls (lines 29-94). -/
def ListArticles.plan (params : ListArticlesParams) : QueryPlan :=
  let page := normPage params.Page
  let limit := normLimit params.Limit
  let offset := wrap64 ((page - 1) * limit)
  let whereConditions : List Cond := []
  let args : List Arg := []
  let argIndex : Nat := 1
  let (whereConditions, args, argIndex) :=
    if params.Search ≠ "" then
      (whereConditions ++ [Cond.search argIndex],
       args ++ [Arg.str ("%" ++ params.Search ++ "%")], argIndex + 1)
    else (whereConditions, args, argIndex)
  let (whereConditions, args, argIndex) :=
    if params.AuthorName ≠ "" then
      (whereConditions ++ [Cond.author argIndex],
       args ++ [Arg.str ("%" ++ params.AuthorName ++ "%")], argIndex + 1)
    else (whereConditions, args, argIndex)
  let whereClause := renderWhere whereConditions
  { Page := page
    Limit := limit
    offset := offset
    whereConditions := whereConditions
    args := args
    argIndex := argIndex
    whereClause := whereClause
    countQuery := renderCountQuery whereClause
    articlesQuery := renderArticlesQuery whereClause argIndex (argIndex + 1)
    pageArgs := args ++ [Arg.int limit, Arg.int offset] }

/-! ## The relational store -/

/-- A row of the `articles` table. -/
structure ArticleRow where
  id : String
  author_id : String
  title : String
  body : String
  created_at : Int
deriving DecidableEq, Repr

/-- The state of the relational store: the two tables of the schema, and
whether the schema declares `articles.author_id` a foreign key into
`authors`.  The schema scripts are not among the sources, so the foreign key
is a parameter of the store rather than a fixed fact. -/
structure Store where
  authors : List Author
  articles : List ArticleRow
  authorFK : Bool
deriving DecidableEq, Repr

/-- The errors the store reports to `database/sql`. -/
inductive DbError where
  /-- Go `sql.ErrNoRows`: `QueryRow(...).Scan` found no row. -/
  | ErrNoRows
  /-- A duplicate primary key on insert. -/
  | uniqueViolation
  /-- An insert referencing a missing author under a foreign key. -/
  | foreignKeyViolation
  /-- PostgreSQL `LIMIT must not be negative`. -/
  | negativeLimit
  /-- PostgreSQL `OFFSET must not be negative`. -/
  | negativeOffset
  /-- A `Scan` of a NULL column into a Go `string`. -/
  | scanNull
  /-- A placeholder without a bound value of the right type, or a number of
  bound values different from what the statement requires. -/
  | badParameter
  /-- Any other failure of the driver or of the connection, with its message. -/
  | connection (msg : String)
deriving DecidableEq, Repr

/-- The errors the repository returns: the typed `*AuthorNotFoundError`, and
`fmt.Errorf(msg + ": %w", err)` wrapping a store error. -/
inductive Error where
  | AuthorNotFoundError
  | wrapped (msg : String) (cause : DbError)
deriving DecidableEq, Repr

/-- Modelled from the spec: the table declarations (`scripts/migrations/*.sql`)
are not among the sources; the spec declares `articles(id PK, author_id,
title, body, created_at)`, so an insert whose `id` is already present is
rejected.  With `authorFK` the insert is also rejected when no author row has
the given `author_id`.  Otherwise the row is appended and returned
(`RETURNING id, author_id, title, body, created_at`). -/
def Store.insertArticle (s : Store) (row : ArticleRow) : Except DbError ArticleRow × Store :=
  if s.articles.any (fun r => r.id == row.id) then (.error .uniqueViolation, s)
  else if s.authorFK && !(s.authors.any (fun au => au.ID == row.author_id)) then
    (.error .foreignKeyViolation, s)
  else (.ok row, { s with articles := s.articles ++ [row] })

/-- The statement `SELECT id, name FROM authors WHERE id = $1` read through
`QueryRow(...).Scan`: the first matching row, or `sql.ErrNoRows`. -/
def Store.selectAuthor (s : Store) (id : String) : Except DbError Author :=
  match s.authors.find? (fun au => au.ID == id) with
  | some au => .ok au
  | none => .error .ErrNoRows

/-- Go `*sql.DB` as the repository holds it (`r.db`): the store behind the
handle and, when the connection or the driver fails, the error that every
statement sent through the handle meets. -/
structure DB where
  store : Store
  fault : Option DbError
deriving DecidableEq, Repr

/-- Go `r.db.QueryRow(query, id).Scan(&author.ID, &author.Name)` with the
query of `GetAuthorByID`: the failure of the handle when it has one, otherwise
the lookup in the store. -/
def DB.selectAuthor (db : DB) (id : String) : Except DbError Author :=
  match db.fault with
  | some err => .error err
  | none => db.store.selectAuthor id

/-- A row of `articles a LEFT JOIN authors au ON a.author_id = au.id`: the
author columns are NULL (`none`) when no author matches. -/
structure JoinedRow where
  a : ArticleRow
  au : Option Author
deriving DecidableEq, Repr

/-- The rows one article contributes to the left join: one per author row
with its `author_id`, or a single row with NULL author columns. -/
def Store.joinArticle (s : Store) (a : ArticleRow) : List JoinedRow :=
  match s.authors.filter (fun au => au.ID == a.author_id) with
  | [] => [⟨a, none⟩]
  | aus => aus.map fun au => ⟨a, some au⟩

/-- The rows of `articles a LEFT JOIN authors au ON a.author_id = au.id`. -/
def Store.joined (s : Store) : List JoinedRow :=
  s.articles.flatMap s.joinArticle

/-! ### `ILIKE` -/

/-- Does `f` hold of some suffix of the text (the empty one included)? -/
def anySuffix (f : List Char → Bool) : List Char → Bool
  | [] => f []
  | c :: t => f (c :: t) || anySuffix f t

/-- PostgreSQL `LIKE` on characters, pattern first: `%` matches any sequence
of characters, `_` any single character, a backslash makes the next pattern
character literal, any other character matches itself.  (A pattern ending in
a lone backslash is rejected by PostgreSQL; the patterns built by the
repository end in `%`, so the case does not arise and is given `false`.) -/
def likeMatch : List Char → List Char → Bool
  | [], t => t.isEmpty
  | c :: p, t =>
    if c = '%' then anySuffix (likeMatch p) t
    else if c = '_' then
      match t with
      | [] => false
      | _ :: t' => likeMatch p t'
    else if c = '\\' then
      match p with
      | [] => false
      | d :: p' =>
        match t with
        | [] => false
        | x :: t' => x == d && likeMatch p' t'
    else
      match t with
      | [] => false
      | x :: t' => x == c && likeMatch p t'

/-- PostgreSQL `text ILIKE pattern`: `LIKE` after folding the letter case of
both operands (ASCII letters). -/
def ilike (text pattern : String) : Bool :=
  likeMatch (pattern.data.map Char.toLower) (text.data.map Char.toLower)

/-! ### Evaluation of the two `ListArticles` statements -/

/-- The string bound to placeholder `$i`. -/
def lookupStr (args : List Arg) (i : Nat) : Except DbError String :=
  if i = 0 then .error .badParameter
  else match args.get? (i - 1) with
    | some (.str s) => .ok s
    | _ => .error .badParameter

/-- The integer bound to placeholder `$i`. -/
def lookupInt (args : List Arg) (i : Nat) : Except DbError Int :=
  if i = 0 then .error .badParameter
  else match args.get? (i - 1) with
    | some (.int n) => .ok n
    | _ => .error .badParameter

/-- The condition `au.name ILIKE pattern` on the author columns of a joined
row: a NULL name makes it NULL, which does not select the row. -/
def authorILike (au : Option Author) (pattern : String) : Bool :=
  match au with
  | none => false
  | some au => ilike au.Name pattern

/-- A condition with its placeholder resolved, as a predicate on joined rows. -/
def Cond.compile (args : List Arg) : Cond → Except DbError (JoinedRow → Bool)
  | .search i => do
    let p ← lookupStr args i
    pure fun r => ilike r.a.title p || ilike r.a.body p
  | .author i => do
    let p ← lookupStr args i
    pure fun r => authorILike r.au p

/-- The conjunction of the conditions of a `WHERE` clause (no clause: every row). -/
def compileWhere (args : List Arg) : List Cond → Except DbError (JoinedRow → Bool)
  | [] => pure fun _ => true
  | c :: cs => do
    let f ← c.compile args
    let g ← compileWhere args cs
    pure fun r => f r && g r

/-- The placeholder index of a condition. -/
def Cond.index : Cond → Nat
  | .search i => i
  | .author i => i

/-- The number of parameters a statement requires: its largest placeholder index. -/
def requiredParams (idxs : List Nat) : Nat := idxs.foldl max 0

/-- The clause `ORDER BY a.created_at DESC`, as a stable sort. -/
def sortByCreatedAtDesc (rows : List JoinedRow) : List JoinedRow :=
  rows.insertionSort fun x y => y.a.created_at ≤ x.a.created_at

/-- The count statement: `SELECT COUNT(*) FROM articles a LEFT JOIN authors au
... WHERE conds`, run with `args`. -/
def Store.QueryRowCount (s : Store) (conds : List Cond) (args : List Arg) :
    Except DbError Int := do
  if args.length ≠ requiredParams (conds.map Cond.index) then throw DbError.badParameter
  let p ← compileWhere args conds
  pure ((s.joined.filter p).length : Int)

/-- The page statement: the joined rows selected by `conds`, `ORDER BY
a.created_at DESC LIMIT $limitIdx OFFSET $offsetIdx`, run with `args`. -/
def Store.Query (s : Store) (conds : List Cond) (limitIdx offsetIdx : Nat) (args : List Arg) :
    Except DbError (List JoinedRow) := do
  if args.length ≠ requiredParams (conds.map Cond.index ++ [limitIdx, offsetIdx]) then
    throw DbError.badParameter
  let p ← compileWhere args conds
  let limit ← lookupInt args limitIdx
  let offset ← lookupInt args offsetIdx
  if limit < 0 then throw DbError.negativeLimit
  if offset < 0 then throw DbError.negativeOffset
  pure (((sortByCreatedAtDesc (s.joined.filter p)).drop offset.toNat).take limit.toNat)

/-- The `rows.Scan` of one result row into an `ArticleListItem` and its
`Author`: a NULL author column cannot be scanned into a Go `string`. -/
def scanRow (r : JoinedRow) : Except DbError ArticleListItem :=
  match r.au with
  | none => .error .scanNull
  | some au =>
    .ok { ID := r.a.id, AuthorID := r.a.author_id, Title := r.a.title,
          CreatedAt := r.a.created_at, Author := some au }

/-- The `for rows.Next()` loop: scan every row, stop at the first failure. -/
def scanRows : List JoinedRow → Except DbError (List ArticleListItem)
  | [] => .ok []
  | r :: rs =>
    match scanRow r with
    | .error e => .error e
    | .ok item =>
      match scanRows rs with
      | .error e => .error e
      | .ok items => .ok (item :: items)

/-- Go `(*ArticleRepository).ListArticles`: the store receives the conditions
and placeholders of the two statements together with the bound arguments. -/
def ListArticles (db : Store) (params : ListArticlesParams) : Except Error ListArticlesResult :=
  let plan := ListArticles.plan params
  match db.QueryRowCount plan.whereConditions plan.args with
  | .error e => .error (.wrapped "failed to count articles" e)
  | .ok total =>
    match db.Query plan.whereConditions plan.argIndex (plan.argIndex + 1) plan.pageArgs with
    | .error e => .error (.wrapped "failed to query articles" e)
    | .ok rows =>
      match scanRows rows with
      | .error e => .error (.wrapped "failed to scan article" e)
      | .ok articles =>
        .ok { Articles := articles, Total := total, Page := plan.Page, Limit := plan.Limit }

/-! ## The cache (`internal/cache/interface.go`, `internal/cache/mock.go`) -/

/-- The dynamic values (`interface{}`) handed to the cache. -/
inductive Value where
  /-- A `models.Article` struct value. -/
  | article (a : Article)
  /-- A `[]interface{}` slice. -/
  | slice (xs : List Value)
  /-- A `string`. -/
  | str (s : String)
  /-- An `int`. -/
  | int (i : Int)

/-- The dynamic type of the `dest` pointer handed to `Get`. -/
inductive Dest where
  /-- Go `*[]interface{}`. -/
  | slicePtr
  /-- Go `*models.Article`. -/
  | articlePtr
  /-- Go `*string`. -/
  | strPtr
  /-- Go `*int`. -/
  | intPtr
deriving DecidableEq, Repr

/-- Go `cache.CacheServiceInterface` over a cache state `σ`: an operation
returns its `error` (`none` is `nil`, otherwise the message) and the new
state; a successful `Get` returns the value written through `dest`. -/
structure CacheServiceInterface (σ : Type) where
  Set : σ → String → Value → Option String × σ
  SetWithTTL : σ → String → Value → Int → Option String × σ
  Get : σ → String → Dest → Except String Value × σ
  Delete : σ → String → Option String × σ
  Close : σ → Option String × σ

/-- Go `cache.MockCacheService`: `data map[string]interface{}`. -/
structure MockCacheService where
  data : String → Option Value

/-- Go `NewMockCacheService`. -/
def NewMockCacheService : MockCacheService := { data := fun _ => none }

/-- Go `(*MockCacheService).Set`. -/
def MockCacheService.Set (m : MockCacheService) (key : String) (value : Value) :
    Option String × MockCacheService :=
  (none, { data := fun k => if k = key then some value else m.data k })

/-- Go `(*MockCacheService).SetWithTTL`: the TTL is ignored. -/
def MockCacheService.SetWithTTL (m : MockCacheService) (key : String) (value : Value)
    (_ttlSeconds : Int) : Option String × MockCacheService :=
  (none, { data := fun k => if k = key then some value else m.data k })

/-- Go `(*MockCacheService).Get`: only a `*[]interface{}` destination with a
`[]interface{}` value succeeds. -/
def MockCacheService.Get (m : MockCacheService) (key : String) (dest : Dest) :
    Except String Value × MockCacheService :=
  match m.data key with
  | none => (.error "key not found", m)
  | some value =>
    match dest, value with
    | .slicePtr, .slice val => (.ok (.slice val), m)
    | _, _ => (.error "type assertion failed", m)

/-- Go `(*MockCacheService).Delete`. -/
def MockCacheService.Delete (m : MockCacheService) (key : String) :
    Option String × MockCacheService :=
  (none, { data := fun k => if k = key then none else m.data k })

/-- Go `(*MockCacheService).Close`. -/
def MockCacheService.Close (m : MockCacheService) : Option String × MockCacheService :=
  (none, m)

/-- The in-memory cache as an implementation of the interface. -/
def mockCache : CacheServiceInterface MockCacheService where
  Set := MockCacheService.Set
  SetWithTTL := MockCacheService.SetWithTTL
  Get := MockCacheService.Get
  Delete := MockCacheService.Delete
  Close := MockCacheService.Close

/-! ## `CreateArticle` and `GetAuthorByID` -/

/-- What a `CreateArticle` call leaves behind: the returned pair, the store,
the cache, and the lines printed with `fmt.Printf`. -/
structure CreateOutcome (σ : Type) where
  result : Except Error Article
  db : Store
  cache : σ
  log : List String

/-- Go `(*ArticleRepository).CreateArticle`.  `unixNano` is the reading of
`time.Now().UnixNano()` that makes the id, `now` the `time.Now()` stored as
`created_at`. -/
def CreateArticle {σ : Type} (cache : CacheServiceInterface σ) (unixNano now : Int)
    (db : Store) (c : σ) (req : CreateArticleRequest) : CreateOutcome σ :=
  let id := "article-" ++ toString unixNano
  match db.insertArticle
      { id := id, author_id := req.AuthorID, title := req.Title, body := req.Body,
        created_at := now } with
  | (.error e, db) =>
    { result := .error (.wrapped "failed to create article" e), db := db, cache := c, log := [] }
  | (.ok row, db) =>
    match db.selectAuthor req.AuthorID with
    | .error e =>
      { result := .error (.wrapped "failed to fetch author" e), db := db, cache := c, log := [] }
    | .ok author =>
      let article : Article :=
        { ID := row.id, AuthorID := row.author_id, Title := row.title, Body := row.body,
          CreatedAt := row.created_at, Author := some author }
      let cacheKey := "article:" ++ article.ID
      let r1 := cache.SetWithTTL c cacheKey (.article article) 600
      let log1 :=
        match r1.1 with
        | some cacheErr => ["Failed to cache created article: " ++ cacheErr ++ "\n"]
        | none => []
      let r2 := cache.Delete r1.2 "articles:list"
      let log2 :=
        match r2.1 with
        | some cacheErr => ["Failed to invalidate cache: " ++ cacheErr ++ "\n"]
        | none => []
      { result := .ok article, db := db, cache := r2.2, log := log1 ++ log2 }

/-- Go `(*ArticleRepository).GetAuthorByID`, over the handle `r.db`. -/
def DB.GetAuthorByID (db : DB) (id : String) : Except Error Author :=
  match db.selectAuthor id with
  | .error e =>
    if e = DbError.ErrNoRows then .error .AuthorNotFoundError
    else .error (.wrapped "failed to get author" e)
  | .ok author => .ok author

/-- The method `GetAuthorByID` of a repository whose handle has no failure:
the statement reaches the store. -/
def GetAuthorByID (db : Store) (id : String) : Except Error Author :=
  DB.GetAuthorByID ⟨db, none⟩ id

/-! ## The HTTP handler (`internal/handlers/article_handler.go`) -/

/-- Go `repository.ArticleRepositoryInterface` over a repository state `ρ`:
every method returns its result and the new state. -/
structure ArticleRepositoryInterface (ρ : Type) where
  ListArticles : ρ → ListArticlesParams → Except Error ListArticlesResult × ρ
  CreateArticle : ρ → CreateArticleRequest → Except Error Article × ρ
  GetAuthorByID : ρ → String → Except Error Author × ρ

/-- What the handler writes to the `http.ResponseWriter`. -/
inductive ResponseBody where
  /-- The message of an `http.Error`. -/
  | text (msg : String)
  /-- The message of an `http.Error` built with `fmt.Sprintf("...: %v", err)`. -/
  | failure (msg : String) (err : Error)
  /-- The JSON encoding of an article. -/
  | article (a : Article)
  /-- The JSON encoding of a list of articles. -/
  | articles (items : List ArticleListItem)
deriving DecidableEq, Repr

/-- The status code and the body of a response. -/
structure Response where
  status : Nat
  body : ResponseBody
deriving DecidableEq, Repr

/-- Go `(*ArticleHandler).CreateArticle`.  `decoded` is the outcome of
`json.NewDecoder(r.Body).Decode(&req)`: `none` for a body that is not valid
JSON, otherwise the decoded request. -/
def ArticleHandler.CreateArticle {ρ : Type} (repo : ArticleRepositoryInterface ρ) (r : ρ)
    (decoded : Option CreateArticleRequest) : Response × ρ :=
  match decoded with
  | none => ({ status := 400, body := .text "Invalid JSON payload" }, r)
  | some req =>
    if req.AuthorID = "" ∨ req.Title = "" ∨ req.Body = "" then
      ({ status := 400, body := .text "Missing required fields: author_id, title, body" }, r)
    else
      match repo.GetAuthorByID r req.AuthorID with
      | (.error _, r1) => ({ status := 400, body := .text "Author not found" }, r1)
      | (.ok _, r1) =>
        match repo.CreateArticle r1 req with
        | (.error err, r2) =>
          ({ status := 500, body := .failure "Failed to create article" err }, r2)
        | (.ok article, r2) => ({ status := 201, body := .article article }, r2)

/-- A call received by a repository. -/
inductive RepoCall where
  | ListArticles (params : ListArticlesParams)
  | CreateArticle (req : CreateArticleRequest)
  | GetAuthorByID (id : String)
deriving DecidableEq, Repr

/-- A repository together with the record, in order, of the calls made to it. -/
def recordCalls {ρ : Type} (repo : ArticleRepositoryInterface ρ) :
    ArticleRepositoryInterface (ρ × List RepoCall) where
  ListArticles := fun s params =>
    ((repo.ListArticles s.1 params).1, ((repo.ListArticles s.1 params).2,
      s.2 ++ [.ListArticles params]))
  CreateArticle := fun s req =>
    ((repo.CreateArticle s.1 req).1, ((repo.CreateArticle s.1 req).2,
      s.2 ++ [.CreateArticle req]))
  GetAuthorByID := fun s id =>
    ((repo.GetAuthorByID s.1 id).1, ((repo.GetAuthorByID s.1 id).2,
      s.2 ++ [.GetAuthorByID id]))

/-- Go `handlers.MockArticleRepository` of the handler tests: the listed
articles and the known authors (`now` stands for the reading of `time.Now()`). -/
structure MockArticleRepository where
  articles : List ArticleListItem
  authors : List Author
  now : Int
deriving DecidableEq, Repr

/-- Go `NewMockArticleRepository`. -/
def NewMockArticleRepository (now : Int) : MockArticleRepository :=
  { articles := [],
    authors := [⟨"author-1", "John Doe"⟩, ⟨"author-2", "Jane Smith"⟩],
    now := now }

/-- The methods of `MockArticleRepository`. -/
def mockArticleRepository : ArticleRepositoryInterface MockArticleRepository where
  ListArticles := fun m params =>
    (.ok { Articles := m.articles, Total := m.articles.length, Page := params.Page,
           Limit := params.Limit }, m)
  CreateArticle := fun m req =>
    match m.authors.find? (fun au => au.ID == req.AuthorID) with
    | none => (.error .AuthorNotFoundError, m)
    | some author =>
      (.ok { ID := "test-article-1", AuthorID := req.AuthorID, Title := req.Title,
             Body := req.Body, CreatedAt := m.now, Author := some author },
       { m with articles := m.articles ++
          [{ ID := "test-article-1", AuthorID := req.AuthorID, Title := req.Title,
             CreatedAt := m.now, Author := some author }] })
  GetAuthorByID := fun m id =>
    match m.authors.find? (fun au => au.ID == id) with
    | none => (.error .AuthorNotFoundError, m)
    | some author => (.ok author, m)

/-! ## Configuration (`internal/config/config.go`) -/

/-- Go `config.AppConfig`. -/
structure AppConfig where
  Name : String
  Env : String
  Location : String
deriving DecidableEq, Repr

/-- Go `config.ServerConfig`; the durations are in nanoseconds. -/
structure ServerConfig where
  Host : String
  Port : String
  ReadTimeout : Int
  WriteTimeout : Int
  IdleTimeout : Int
deriving DecidableEq, Repr

/-- Go `config.DatabaseConfig`. -/
structure DatabaseConfig where
  Host : String
  Port : String
  Name : String
  User : String
  Password : String
deriving DecidableEq, Repr

/-- Go `config.RedisConfig`. -/
structure RedisConfig where
  Host : String
  Port : String
  Password : String
  Username : String
  DB : Int
  InitTimeout : Int
  ArticleTTL : Int
  ArticlePrefix : String
deriving DecidableEq, Repr

/-- Go `config.Config`. -/
structure Config where
  App : AppConfig
  Server : ServerConfig
  Database : DatabaseConfig
  Redis : RedisConfig
deriving DecidableEq, Repr

/-- The process environment: the value of each variable that is set. -/
abbrev Environ := String → Option String

/-- Go `os.Getenv`: the value of the variable, empty when it is not set. -/
def Getenv (env : Environ) (key : String) : String := (env key).getD ""

/-- Go `getEnv`. -/
def getEnv (env : Environ) (key defaultValue : String) : String :=
  if Getenv env key ≠ "" then Getenv env key else defaultValue

/-- Go `getIntEnv`; `atoi` is `strconv.Atoi`, `none` for its error. -/
def getIntEnv (atoi : String → Option Int) (env : Environ) (key : String)
    (defaultValue : Int) : Int :=
  if Getenv env key ≠ "" then
    match atoi (Getenv env key) with
    | some intValue => intValue
    | none => defaultValue
  else defaultValue

/-- Go `getDurationEnv`; `parseDuration` is `time.ParseDuration`, `none` for
its error. -/
def getDurationEnv (parseDuration : String → Option Int) (env : Environ) (key : String)
    (defaultValue : Int) : Int :=
  if Getenv env key ≠ "" then
    match parseDuration (Getenv env key) with
    | some duration => duration
    | none => defaultValue
  else defaultValue

/-- Go `time.Second`, in nanoseconds. -/
def Second : Int := 1000000000

/-- Go `LoadConfig`. -/
def LoadConfig (atoi parseDuration : String → Option Int) (env : Environ) : Config :=
  { App :=
      { Name := getEnv env "APP_NAME" "article_api"
        Env := getEnv env "APP_ENV" "dev"
        Location := getEnv env "SERVER_LOCATION" "Asia/Jakarta" }
    Server :=
      { Host := getEnv env "SERVER_HOST" "0.0.0.0"
        Port := getEnv env "HTTP_SERVER_PORT" "8080"
        ReadTimeout := getDurationEnv parseDuration env "SERVER_READ_TIMEOUT" (30 * Second)
        WriteTimeout := getDurationEnv parseDuration env "SERVER_WRITE_TIMEOUT" (30 * Second)
        IdleTimeout := getDurationEnv parseDuration env "SERVER_IDLE_TIMEOUT" (120 * Second) }
    Database :=
      { Host := getEnv env "DB_HOST" "localhost"
        Port := getEnv env "DB_PORT" "5432"
        Name := getEnv env "DB_DATABASE" "article_db"
        User := getEnv env "DB_USERNAME" "article_user"
        Password := getEnv env "DB_PASSWORD" "article_password" }
    Redis :=
      { Host := getEnv env "REDIS_HOST" "localhost"
        Port := getEnv env "REDIS_PORT" "6379"
        Password := getEnv env "REDIS_PASSWORD" ""
        Username := getEnv env "REDIS_USERNAME" ""
        DB := getIntEnv atoi env "REDIS_DB" 3
        InitTimeout := getIntEnv atoi env "REDIS_INIT_TIMEOUT" 5
        ArticleTTL := getIntEnv atoi env "REDIS_ARTICLE_TTL" 86400
        ArticlePrefix := getEnv env "REDIS_ARTICLE_PREFIX" "article-" } }

/-- The environment `TestLoadConfig` sets up. -/
def testLoadConfigEnv : Environ := fun key =>
  if key = "SERVER_HOST" then some "test-host"
  else if key = "SERVER_PORT" then some "9090"
  else if key = "SERVER_READ_TIMEOUT" then some "60s"
  else if key = "DB_HOST" then some "test-db-host"
  else if key = "REDIS_HOST" then some "test-redis-host"
  else if key = "API_KEY" then some "test-api-key"
  else none

/-! ## Migrations (`internal/migration/migrate.go`) -/

/-- What the migration runner depends on outside the database: whether a
migration file can be read, and whether its SQL runs without error. -/
structure MigrationEnv where
  readable : String → Bool
  sqlOk : String → Bool

/-- The database as the migration runner sees it: the scripts whose SQL has
been run, in order, and the `filename` column of the `migrations` table. -/
structure MigrationDb where
  ran : List String
  recorded : List String
deriving DecidableEq, Repr

/-- The errors of `executeMigration`, each for the file it arose on. -/
inductive MigrationError where
  /-- Message `failed to read migration file`. -/
  | read (filename : String)
  /-- Message `failed to execute migration SQL`. -/
  | exec (filename : String)
  /-- Message `failed to record migration`: the `UNIQUE` constraint on `filename`. -/
  | record (filename : String)
deriving DecidableEq, Repr

/-- Byte-wise lexicographic order on file names. -/
def charsLE : List Char → List Char → Bool
  | [], _ => true
  | _ :: _, [] => false
  | a :: as, b :: bs =>
    if a.toNat < b.toNat then true
    else if a.toNat = b.toNat then charsLE as bs
    else false

/-- Go `getExecutedMigrations`: `SELECT filename FROM migrations ORDER BY filename`. -/
def getExecutedMigrations (db : MigrationDb) : List String :=
  db.recorded.insertionSort fun a b => charsLE a.data b.data = true

/-- Go `isMigrationExecuted`. -/
def isMigrationExecuted (filename : String) : List String → Bool
  | [] => false
  | executed :: rest =>
    if executed = filename then true else isMigrationExecuted filename rest

/-- Go `executeMigration`: read the file, run its SQL, record the file name
(`filename ... NOT NULL UNIQUE` in `createMigrationsTable`). -/
def executeMigration (env : MigrationEnv) (db : MigrationDb) (filename : String) :
    Except MigrationError Unit × MigrationDb :=
  if !env.readable filename then (.error (.read filename), db)
  else if !env.sqlOk filename then (.error (.exec filename), db)
  else if db.recorded.contains filename then
    (.error (.record filename), { db with ran := db.ran ++ [filename] })
  else
    (.ok (), { ran := db.ran ++ [filename], recorded := db.recorded ++ [filename] })

/-- The loop of `RunMigrations` over the migration files, with the list of
executed migrations read before the loop and the running `executedCount`. -/
def runPending (env : MigrationEnv) (executedMigrations : List String) :
    List String → MigrationDb → Nat → Except MigrationError Nat × MigrationDb
  | [], db, executedCount => (.ok executedCount, db)
  | file :: rest, db, executedCount =>
    if !isMigrationExecuted file executedMigrations then
      match executeMigration env db file with
      | (.error err, db') => (.error err, db')
      | (.ok _, db') => runPending env executedMigrations rest db' (executedCount + 1)
    else runPending env executedMigrations rest db executedCount

/-- Go `RunMigrations`, after `createMigrationsTable` and `getMigrationFiles`
have succeeded: `migrationFiles` is the list the latter returned.  The result
is the error of the failing migration or the number of migrations executed. -/
def RunMigrations (env : MigrationEnv) (migrationFiles : List String) (db : MigrationDb) :
    Except MigrationError Nat × MigrationDb :=
  runPending env (getExecutedMigrations db) migrationFiles db 0

/-! ## Auxiliary definitions for the statements -/

deriving instance DecidableEq for Except

/-- A cache every operation of which fails, as `CacheService` does once the
Redis server is unreachable. -/
def failingCache : CacheServiceInterface Unit where
  Set := fun c _ _ => (some "failed to set cache: connection refused", c)
  SetWithTTL := fun c _ _ _ => (some "failed to set cache: connection refused", c)
  Get := fun c _ _ => (.error "failed to get from cache: connection refused", c)
  Delete := fun c _ => (some "failed to delete from cache: connection refused", c)
  Close := fun c => (some "connection refused", c)

/-- The `authors(id PK, name)` constraint of the schema: no two author rows
share an id. -/
def Store.AuthorsPK (s : Store) : Prop := s.authors.Pairwise fun x y => x.ID ≠ y.ID

instance (s : Store) : Decidable s.AuthorsPK := by
  unfold Store.AuthorsPK; infer_instance

/-- Referential integrity: every article row names an author row. -/
def Store.Referential (s : Store) : Prop :=
  ∀ a ∈ s.articles, ∃ au ∈ s.authors, au.ID = a.author_id

instance (s : Store) : Decidable s.Referential := by
  unfold Store.Referential; infer_instance

/-- The rows selected by the filters of `params`: with a non-empty `Search`
the title or the body must be `ILIKE '%' || Search || '%'`, with a non-empty
`AuthorName` the joined author's name must be `ILIKE '%' || AuthorName || '%'`. -/
def matchesFilter (params : ListArticlesParams) (r : JoinedRow) : Bool :=
  (params.Search = "" ||
    (ilike r.a.title ("%" ++ params.Search ++ "%") || ilike r.a.body ("%" ++ params.Search ++ "%")))
  && (params.AuthorName = "" || authorILike r.au ("%" ++ params.AuthorName ++ "%"))

/-- The list item a joined row is scanned into. -/
def JoinedRow.item (r : JoinedRow) : ArticleListItem :=
  { ID := r.a.id, AuthorID := r.a.author_id, Title := r.a.title,
    CreatedAt := r.a.created_at, Author := r.au }

/-- The spec's "case-insensitive substring match": the needle occurs in the
haystack as a contiguous run of characters, letter case (ASCII) ignored. -/
def containsIgnoreCase (haystack needle : String) : Bool :=
  anySuffix (fun t => (needle.data.map Char.toLower).isPrefixOf t)
    (haystack.data.map Char.toLower)

/-- The characters `LIKE` treats specially. -/
def isLikeMeta (c : Char) : Bool := c = '%' || c = '_' || c = '\\'

/-- The value of a decimal digit character. -/
def digitVal (c : Char) : Nat := c.toNat - 48

/-- The number a list of decimal digit characters denotes. -/
def decodeDigits (ds : List Char) : Nat := ds.foldl (fun acc c => 10 * acc + digitVal c) 0

/-- The rows the page statement returns for `params`: the selected rows in
descending `created_at` order, without the first `offset`, cut at `Limit`. -/
def pageSlice (db : Store) (params : ListArticlesParams) : List JoinedRow :=
  ((sortByCreatedAtDesc (db.joined.filter (matchesFilter params))).drop
    (ListArticles.plan params).offset.toNat).take (ListArticles.plan params).Limit.toNat

/-- The filter value a condition was built from. -/
def Cond.value (params : ListArticlesParams) : Cond → String
  | .search _ => params.Search
  | .author _ => params.AuthorName

/-- The positional placeholders `$n` occurring in an SQL text, in order of
occurrence: a dollar sign followed by at least one decimal digit. -/
def placeholdersOf : List Char → List Nat
  | [] => []
  | c :: rest =>
    if c = '$' ∧ (rest.takeWhile Char.isDigit) ≠ [] then
      decodeDigits (rest.takeWhile Char.isDigit) :: placeholdersOf rest
    else placeholdersOf rest

/-- The stores a repository can leave behind, starting from a given one.  Of
the three methods of the repository only `CreateArticle` writes to the store
(`ListArticles` and `GetAuthorByID` read it), so a later store is reached by a
sequence of `CreateArticle` calls, successful or not, with any cache, clock
readings and requests. -/
inductive Store.Reaches : Store → Store → Prop where
  | refl (s : Store) : Store.Reaches s s
  | create {σ : Type} (cache : CacheServiceInterface σ) (unixNano now : Int) (c : σ)
      (req : CreateArticleRequest) {s s' : Store} :
      Store.Reaches s s' → Store.Reaches s (CreateArticle cache unixNano now s' c req).db

/-- A call received by a cache. -/
inductive CacheCall where
  | Set (key : String) (value : Value)
  | SetWithTTL (key : String) (value : Value) (ttlSeconds : Int)
  | Get (key : String) (dest : Dest)
  | Delete (key : String)
  | Close

/-- A cache that only records, in order, the calls made to it. -/
def recordingCache : CacheServiceInterface (List CacheCall) where
  Set := fun calls key value => (none, calls ++ [.Set key value])
  SetWithTTL := fun calls key value ttl => (none, calls ++ [.SetWithTTL key value ttl])
  Get := fun calls key dest => (.error "key not found", calls ++ [.Get key dest])
  Delete := fun calls key => (none, calls ++ [.Delete key])
  Close := fun calls => (none, calls ++ [.Close])

/-- Go `repository.ArticleRepository`: the store handle and the cache handle,
each with its current state. -/
structure ArticleRepository (σ : Type) where
  db : Store
  cache : CacheServiceInterface σ
  cacheState : σ

/-- Go `(*ArticleRepository).ListArticles` as a method of the repository: the
body uses `r.db` only, so the repository, its cache state included, is
returned as it was received. -/
def ArticleRepository.ListArticles {σ : Type} (r : ArticleRepository σ)
    (params : ListArticlesParams) : Except Error ListArticlesResult × ArticleRepository σ :=
  (ArticleApi.ListArticles r.db params, r)

/-- The spec's "destination shape matching the stored value": the
destination points to a variable of the dynamic type of the value. -/
def Dest.fits : Dest → Value → Bool
  | .slicePtr, .slice _ => true
  | .articlePtr, .article _ => true
  | .strPtr, .str _ => true
  | .intPtr, .int _ => true
  | _, _ => false

/-- Go `strconv.Atoi`: an optional sign followed by at least one decimal
digit, denoting a value a Go `int` can hold; `none` stands for its error. -/
def Atoi (s : String) : Option Int :=
  match s.data with
  | [] => none
  | c :: rest =>
    let digits := if c = '-' ∨ c = '+' then rest else c :: rest
    if digits = [] ∨ digits.all Char.isDigit = false then none
    else
      let v : Int := if c = '-' then -(decodeDigits digits : Int) else (decodeDigits digits : Int)
      if InInt64 v then some v else none

/-- Go `parseIntParam` of the handler. -/
def parseIntParam (value : String) (defaultValue : Int) : Int :=
  if value = "" then defaultValue
  else
    match Atoi value with
    | some parsed => if parsed > 0 then parsed else defaultValue
    | none => defaultValue

/-- The parameters `(*ArticleHandler).ListArticles` builds from the query
string (lines 26-37): `search`, `author`, `page` and `limit` are the values
`r.URL.Query().Get` returns, empty for a parameter that is absent. -/
def ArticleHandler.listParams (search author page limit : String) : ListArticlesParams :=
  { Search := search
    AuthorName := author
    Page := parseIntParam page 1
    Limit := parseIntParam limit 10 }

/-! # Properties -/

/-! ## Pagination parameters -/

theorem normLimit_range (limit : Int) : 1 ≤ normLimit limit ∧ normLimit limit ≤ 100 := by
  simp only [normLimit]
  constructor <;> split_ifs <;> omega

theorem normPage_pos (page : Int) : 1 ≤ normPage page := by
  unfold normPage
  split_ifs <;> omega

theorem plan_Limit (params : ListArticlesParams) :
    (ListArticles.plan params).Limit = normLimit params.Limit := rfl

theorem plan_Page (params : ListArticlesParams) :
    (ListArticles.plan params).Page = normPage params.Page := rfl

theorem plan_offset (params : ListArticlesParams) :
    (ListArticles.plan params).offset
      = wrap64 ((normPage params.Page - 1) * normLimit params.Limit) := rfl

theorem plan_pageArgs (params : ListArticlesParams) :
    (ListArticles.plan params).pageArgs
      = (ListArticles.plan params).args
        ++ [Arg.int (ListArticles.plan params).Limit, Arg.int (ListArticles.plan params).offset] := by
  unfold ListArticles.plan
  by_cases h1 : params.Search = "" <;> by_cases h2 : params.AuthorName = "" <;> simp [h1, h2]

theorem plan_args_length (params : ListArticlesParams) :
    (ListArticles.plan params).args.length + 1 = (ListArticles.plan params).argIndex := by
  unfold ListArticles.plan
  by_cases h1 : params.Search = "" <;> by_cases h2 : params.AuthorName = "" <;> simp [h1, h2]

/-- A successful `ListArticles` returns the page and the limit of its plan. -/
theorem ListArticles_ok_fields (db : Store) (params : ListArticlesParams)
    (r : ListArticlesResult) (h : ListArticles db params = .ok r) :
    r.Page = (ListArticles.plan params).Page ∧ r.Limit = (ListArticles.plan params).Limit := by
  unfold ListArticles at h
  simp only at h
  split at h
  · exact absurd h (by simp)
  · split at h
    · exact absurd h (by simp)
    · split at h
      · exact absurd h (by simp)
      · simp only [Except.ok.injEq] at h
        subst h
        exact ⟨rfl, rfl⟩

theorem lookupInt_append_fst (args : List Arg) (x y : Int) :
    lookupInt (args ++ [Arg.int x, Arg.int y]) (args.length + 1) = .ok x := by
  have h : (args ++ [Arg.int x, Arg.int y])[args.length]? = some (Arg.int x) := by
    rw [List.getElem?_append_right (le_refl _)]; simp
  unfold lookupInt
  rw [if_neg (by omega), List.get?_eq_getElem?, Nat.add_sub_cancel, h]

theorem lookupInt_append_snd (args : List Arg) (x y : Int) :
    lookupInt (args ++ [Arg.int x, Arg.int y]) (args.length + 1 + 1) = .ok y := by
  have h : (args ++ [Arg.int x, Arg.int y])[args.length + 1]? = some (Arg.int y) := by
    rw [List.getElem?_append_right (Nat.le_succ _)]; simp
  unfold lookupInt
  rw [if_neg (by omega), List.get?_eq_getElem?, Nat.add_sub_cancel, h]

/-- C1: the limit `ListArticles` binds to the `LIMIT` placeholder of the page
query and returns in its result is 10 for an input limit `≤ 0`, 100 for an
input limit `> 100`, and the input limit when it lies in `[1,100]`. -/
theorem ListArticles_effective_limit (db : Store) (params : ListArticlesParams) :
    (params.Limit ≤ 0 → (ListArticles.plan params).Limit = 10)
    ∧ (params.Limit > 100 → (ListArticles.plan params).Limit = 100)
    ∧ (1 ≤ params.Limit ∧ params.Limit ≤ 100 → (ListArticles.plan params).Limit = params.Limit)
    ∧ lookupInt (ListArticles.plan params).pageArgs (ListArticles.plan params).argIndex
        = .ok (ListArticles.plan params).Limit
    ∧ ∀ r, ListArticles db params = .ok r → r.Limit = (ListArticles.plan params).Limit := by
  refine ⟨?_, ?_, ?_, ?_, ?_⟩
  · intro h
    rw [plan_Limit]; unfold normLimit; simp [h]
  · intro h
    rw [plan_Limit]; unfold normLimit
    have : ¬ params.Limit ≤ 0 := by omega
    simp [this, h]
  · intro h
    rw [plan_Limit]; unfold normLimit
    have h1 : ¬ params.Limit ≤ 0 := by omega
    have h2 : ¬ params.Limit > 100 := by omega
    simp [h1, h2]
  · rw [plan_pageArgs, ← plan_args_length]
    exact lookupInt_append_fst _ _ _
  · intro r h
    exact (ListArticles_ok_fields db params r h).2

/-- C2: the page `ListArticles` uses and returns is 1 for an input page `≤ 0`
and the input page otherwise; the returned page is at least 1. -/
theorem ListArticles_effective_page (db : Store) (params : ListArticlesParams) :
    (params.Page ≤ 0 → (ListArticles.plan params).Page = 1)
    ∧ (0 < params.Page → (ListArticles.plan params).Page = params.Page)
    ∧ (ListArticles.plan params).offset
        = wrap64 (((ListArticles.plan params).Page - 1) * (ListArticles.plan params).Limit)
    ∧ ∀ r, ListArticles db params = .ok r →
        r.Page = (ListArticles.plan params).Page ∧ 1 ≤ r.Page := by
  refine ⟨?_, ?_, rfl, ?_⟩
  · intro h
    rw [plan_Page]; unfold normPage; simp [h]
  · intro h
    rw [plan_Page]; unfold normPage
    have : ¬ params.Page ≤ 0 := by omega
    simp [this]
  · intro r h
    have hp := (ListArticles_ok_fields db params r h).1
    refine ⟨hp, ?_⟩
    rw [hp, plan_Page]
    exact normPage_pos _

/-- The three cases of the limit and a returned limit, on concrete parameters. -/
theorem ListArticles_effective_limit_witness :
    (ListArticles.plan ⟨"", "", 1, 0⟩).Limit = 10
    ∧ (ListArticles.plan ⟨"", "", 1, 101⟩).Limit = 100
    ∧ (ListArticles.plan ⟨"", "", 1, 37⟩).Limit = 37
    ∧ (∃ r, ListArticles ⟨[⟨"a1", "Ada"⟩], [⟨"x1", "a1", "Hello", "World", 5⟩], true⟩
              ⟨"", "", 1, 500⟩ = .ok r ∧ r.Limit = 100) :=
  ⟨(ListArticles_effective_limit ⟨[], [], true⟩ ⟨"", "", 1, 0⟩).1 (by decide),
   (ListArticles_effective_limit ⟨[], [], true⟩ ⟨"", "", 1, 101⟩).2.1 (by decide),
   (ListArticles_effective_limit ⟨[], [], true⟩ ⟨"", "", 1, 37⟩).2.2.1 (by decide),
   ⟨_, rfl, (ListArticles_effective_limit ⟨[⟨"a1", "Ada"⟩], [⟨"x1", "a1", "Hello", "World", 5⟩], true⟩
      ⟨"", "", 1, 500⟩).2.2.2.2 _ rfl⟩⟩

/-- The two cases of the page and a returned page, on concrete parameters. -/
theorem ListArticles_effective_page_witness :
    (ListArticles.plan ⟨"", "", -4, 10⟩).Page = 1
    ∧ (ListArticles.plan ⟨"", "", 7, 10⟩).Page = 7
    ∧ (∃ r, ListArticles ⟨[⟨"a1", "Ada"⟩], [⟨"x1", "a1", "Hello", "World", 5⟩], true⟩
              ⟨"", "", 0, 10⟩ = .ok r ∧ r.Page = 1 ∧ 1 ≤ r.Page) :=
  ⟨(ListArticles_effective_page ⟨[], [], true⟩ ⟨"", "", -4, 10⟩).1 (by decide),
   (ListArticles_effective_page ⟨[], [], true⟩ ⟨"", "", 7, 10⟩).2.1 (by decide),
   ⟨_, rfl, (ListArticles_effective_page ⟨[⟨"a1", "Ada"⟩], [⟨"x1", "a1", "Hello", "World", 5⟩], true⟩
      ⟨"", "", 0, 10⟩).2.2.2 _ rfl⟩⟩

/-! ## The bound `LIMIT` and `OFFSET` -/

theorem wrap64_of_fits (x : Int) (h0 : 0 ≤ x) (h1 : x < 2 ^ 63) : wrap64 x = x := by
  unfold wrap64
  rw [Int.emod_eq_of_lt (by omega) (by omega)]
  omega

/-- C3, as stated, fails twice.  For page 3 and limit 5 the two last bound
arguments are the limit 5 and then the offset 10, not the offset followed by
the limit.  For page 92233720368547760 and limit 100 the bound offset is the
wrapped value -9223372036854775716, not the product `(p - 1) * l`. -/
theorem ListArticles_offset_limit_counterexample :
    (ListArticles.plan ⟨"", "", 3, 5⟩).pageArgs = [Arg.int 5, Arg.int 10]
    ∧ (ListArticles.plan ⟨"", "", 3, 5⟩).pageArgs
        ≠ (ListArticles.plan ⟨"", "", 3, 5⟩).args ++ [Arg.int ((3 - 1) * 5), Arg.int 5]
    ∧ (ListArticles.plan ⟨"", "", 92233720368547760, 100⟩).Page = 92233720368547760
    ∧ (ListArticles.plan ⟨"", "", 92233720368547760, 100⟩).Limit = 100
    ∧ (ListArticles.plan ⟨"", "", 92233720368547760, 100⟩).offset = -9223372036854775716
    ∧ (ListArticles.plan ⟨"", "", 92233720368547760, 100⟩).offset
        ≠ (92233720368547760 - 1) * 100 := by
  decide

/-- C3, amended: when `(p - 1) * l` for the effective page `p` and limit `l`
fits a signed 64-bit integer, the bound `OFFSET` value is `(p - 1) * l` and the
bound `LIMIT` value is `l`; they are the last two bound arguments, the limit
first (placeholder `$argIndex`) and the offset second (`$argIndex+1`). -/
theorem ListArticles_limit_offset_args (params : ListArticlesParams)
    (hfit : ((ListArticles.plan params).Page - 1) * (ListArticles.plan params).Limit < 2 ^ 63) :
    (ListArticles.plan params).offset
        = ((ListArticles.plan params).Page - 1) * (ListArticles.plan params).Limit
    ∧ (ListArticles.plan params).pageArgs
        = (ListArticles.plan params).args
          ++ [Arg.int (ListArticles.plan params).Limit,
              Arg.int (((ListArticles.plan params).Page - 1) * (ListArticles.plan params).Limit)]
    ∧ lookupInt (ListArticles.plan params).pageArgs (ListArticles.plan params).argIndex
        = .ok (ListArticles.plan params).Limit
    ∧ lookupInt (ListArticles.plan params).pageArgs ((ListArticles.plan params).argIndex + 1)
        = .ok (((ListArticles.plan params).Page - 1) * (ListArticles.plan params).Limit) := by
  have hoff : (ListArticles.plan params).offset
      = ((ListArticles.plan params).Page - 1) * (ListArticles.plan params).Limit := by
    rw [plan_offset, ← plan_Page, ← plan_Limit]
    apply wrap64_of_fits _ _ hfit
    have hp := normPage_pos params.Page
    have hl := (normLimit_range params.Limit).1
    rw [plan_Page, plan_Limit]
    exact Int.mul_nonneg (by omega) (by omega)
  refine ⟨hoff, ?_, ?_, ?_⟩
  · rw [plan_pageArgs, hoff]
  · rw [plan_pageArgs, ← plan_args_length]
    exact lookupInt_append_fst _ _ _
  · rw [plan_pageArgs, ← plan_args_length, hoff]
    exact lookupInt_append_snd _ _ _

/-- Page 3 with limit 5 and one filter: the bound arguments end in 5, 10. -/
theorem ListArticles_limit_offset_args_witness :
    (ListArticles.plan ⟨"go", "", 3, 5⟩).offset = 10
    ∧ (ListArticles.plan ⟨"go", "", 3, 5⟩).pageArgs = [Arg.str "%go%", Arg.int 5, Arg.int 10] := by
  have h := ListArticles_limit_offset_args ⟨"go", "", 3, 5⟩ (by decide)
  exact ⟨h.1, h.2.1⟩

/-! ## `CreateArticle` -/

/-- The row `CreateArticle` inserts. -/
theorem insertArticle_ok (s : Store) (row r : ArticleRow) (s' : Store)
    (h : s.insertArticle row = (.ok r, s')) :
    r = row ∧ s' = { s with articles := s.articles ++ [row] }
      ∧ s.articles.any (fun x => x.id == row.id) = false := by
  unfold Store.insertArticle at h
  split_ifs at h with h1 h2
  · simp at h
  · simp at h
  · simp only [Prod.mk.injEq, Except.ok.injEq] at h
    refine ⟨h.1.symm, h.2.symm, ?_⟩
    simpa using h1

theorem insertArticle_error (s : Store) (row : ArticleRow) (e : DbError) (s' : Store)
    (h : s.insertArticle row = (.error e, s')) : s' = s := by
  unfold Store.insertArticle at h
  split_ifs at h with h1 h2
  · simp only [Prod.mk.injEq] at h; exact h.2.symm
  · simp only [Prod.mk.injEq] at h; exact h.2.symm
  · simp at h

theorem selectAuthor_ok (s : Store) (id : String) (au : Author)
    (h : s.selectAuthor id = .ok au) : au ∈ s.authors ∧ au.ID = id := by
  unfold Store.selectAuthor at h
  split at h
  · rename_i a hf
    simp only [Except.ok.injEq] at h
    subst h
    exact ⟨List.mem_of_find?_eq_some hf, by simpa using List.find?_some hf⟩
  · simp at h

/-- The row `CreateArticle` hands to the insert. -/
theorem CreateArticle_insert_error {σ : Type} (cache : CacheServiceInterface σ)
    (unixNano now : Int) (db : Store) (c : σ) (req : CreateArticleRequest)
    (e : DbError) (db' : Store)
    (hins : db.insertArticle
      { id := "article-" ++ toString unixNano, author_id := req.AuthorID, title := req.Title,
        body := req.Body, created_at := now } = (.error e, db')) :
    CreateArticle cache unixNano now db c req
      = { result := .error (.wrapped "failed to create article" e), db := db', cache := c,
          log := [] } := by
  unfold CreateArticle
  simp only [hins]

theorem CreateArticle_fetch_error {σ : Type} (cache : CacheServiceInterface σ)
    (unixNano now : Int) (db : Store) (c : σ) (req : CreateArticleRequest)
    (row : ArticleRow) (e : DbError) (db' : Store)
    (hins : db.insertArticle
      { id := "article-" ++ toString unixNano, author_id := req.AuthorID, title := req.Title,
        body := req.Body, created_at := now } = (.ok row, db'))
    (hsel : db'.selectAuthor req.AuthorID = .error e) :
    CreateArticle cache unixNano now db c req
      = { result := .error (.wrapped "failed to fetch author" e), db := db', cache := c,
          log := [] } := by
  unfold CreateArticle
  simp only [hins, hsel]

theorem CreateArticle_success {σ : Type} (cache : CacheServiceInterface σ)
    (unixNano now : Int) (db : Store) (c : σ) (req : CreateArticleRequest)
    (row : ArticleRow) (author : Author) (db' : Store)
    (hins : db.insertArticle
      { id := "article-" ++ toString unixNano, author_id := req.AuthorID, title := req.Title,
        body := req.Body, created_at := now } = (.ok row, db'))
    (hsel : db'.selectAuthor req.AuthorID = .ok author) :
    (CreateArticle cache unixNano now db c req).result
        = .ok { ID := "article-" ++ toString unixNano, AuthorID := req.AuthorID,
                Title := req.Title, Body := req.Body, CreatedAt := now, Author := some author }
    ∧ (CreateArticle cache unixNano now db c req).db = db'
    ∧ (CreateArticle cache unixNano now db c req).cache
        = (cache.Delete
            (cache.SetWithTTL c ("article:" ++ ("article-" ++ toString unixNano))
              (.article { ID := "article-" ++ toString unixNano, AuthorID := req.AuthorID,
                          Title := req.Title, Body := req.Body, CreatedAt := now,
                          Author := some author }) 600).2
            "articles:list").2 := by
  obtain ⟨hrow, -, -⟩ := insertArticle_ok _ _ _ _ hins
  subst hrow
  unfold CreateArticle
  simp only [hins, hsel, and_self]

/-- What a successful `CreateArticle` has done. -/
theorem CreateArticle_ok {σ : Type} (cache : CacheServiceInterface σ) (unixNano now : Int)
    (db : Store) (c : σ) (req : CreateArticleRequest) (a : Article)
    (h : (CreateArticle cache unixNano now db c req).result = .ok a) :
    db.articles.any (fun x => x.id == "article-" ++ toString unixNano) = false
    ∧ (CreateArticle cache unixNano now db c req).db
        = { db with articles := db.articles ++
              [{ id := "article-" ++ toString unixNano, author_id := req.AuthorID,
                 title := req.Title, body := req.Body, created_at := now }] }
    ∧ ∃ au, db.selectAuthor req.AuthorID = .ok au
        ∧ a = { ID := "article-" ++ toString unixNano, AuthorID := req.AuthorID,
                Title := req.Title, Body := req.Body, CreatedAt := now, Author := some au }
        ∧ (CreateArticle cache unixNano now db c req).cache
            = (cache.Delete (cache.SetWithTTL c ("article:" ++ a.ID) (.article a) 600).2
                "articles:list").2 := by
  rcases hins : db.insertArticle
      { id := "article-" ++ toString unixNano, author_id := req.AuthorID, title := req.Title,
        body := req.Body, created_at := now } with ⟨r, db'⟩
  cases r with
  | error e =>
    rw [CreateArticle_insert_error cache unixNano now db c req e db' hins] at h
    simp at h
  | ok row =>
    obtain ⟨-, hdb, hfresh⟩ := insertArticle_ok _ _ _ _ hins
    cases hsel : db'.selectAuthor req.AuthorID with
    | error e =>
      rw [CreateArticle_fetch_error cache unixNano now db c req row e db' hins hsel] at h
      simp at h
    | ok author =>
      obtain ⟨hres, hdb', hcache⟩ :=
        CreateArticle_success cache unixNano now db c req row author db' hins hsel
      rw [hres] at h
      simp only [Except.ok.injEq] at h
      subst h
      refine ⟨hfresh, by rw [hdb', hdb], author, ?_, rfl, hcache⟩
      rw [hdb] at hsel
      exact hsel

/-- No path of `CreateArticle` returns the typed error. -/
theorem CreateArticle_never_AuthorNotFoundError {σ : Type} (cache : CacheServiceInterface σ)
    (unixNano now : Int) (db : Store) (c : σ) (req : CreateArticleRequest) :
    (CreateArticle cache unixNano now db c req).result ≠ .error .AuthorNotFoundError := by
  rcases hins : db.insertArticle
      { id := "article-" ++ toString unixNano, author_id := req.AuthorID, title := req.Title,
        body := req.Body, created_at := now } with ⟨r, db'⟩
  cases r with
  | error e =>
    rw [CreateArticle_insert_error cache unixNano now db c req e db' hins]
    simp
  | ok row =>
    cases hsel : db'.selectAuthor req.AuthorID with
    | error e =>
      rw [CreateArticle_fetch_error cache unixNano now db c req row e db' hins hsel]
      simp
    | ok author =>
      rw [(CreateArticle_success cache unixNano now db c req row author db' hins hsel).1]
      simp

/-- C4, at the failing input: a request naming the author id `missing`, which
no author row has.  Without a foreign key `CreateArticle` inserts the row and
then fails with the wrapped `failed to fetch author` error, the row staying in
the store; with a foreign key it fails with the wrapped `failed to create
article` error.  Neither is the typed `AuthorNotFoundError`, which
`GetAuthorByID` returns for the same lookup. -/
theorem CreateArticle_missing_author_eval :
    (CreateArticle mockCache 42 43 ⟨[⟨"a1", "Ada"⟩], [], false⟩ NewMockCacheService
        ⟨"missing", "T", "B"⟩).result
      = .error (.wrapped "failed to fetch author" .ErrNoRows)
    ∧ (CreateArticle mockCache 42 43 ⟨[⟨"a1", "Ada"⟩], [], false⟩ NewMockCacheService
        ⟨"missing", "T", "B"⟩).db.articles
      = [⟨"article-42", "missing", "T", "B", 43⟩]
    ∧ (CreateArticle mockCache 42 43 ⟨[⟨"a1", "Ada"⟩], [], true⟩ NewMockCacheService
        ⟨"missing", "T", "B"⟩).result
      = .error (.wrapped "failed to create article" .foreignKeyViolation)
    ∧ (CreateArticle mockCache 42 43 ⟨[⟨"a1", "Ada"⟩], [], true⟩ NewMockCacheService
        ⟨"missing", "T", "B"⟩).db.articles = []
    ∧ GetAuthorByID ⟨[⟨"a1", "Ada"⟩], [], false⟩ "missing" = .error .AuthorNotFoundError := by
  decide

/-! ## The cache after `CreateArticle` -/

theorem articleKey_ne_listKey (id : String) : "article:" ++ id ≠ "articles:list" := by
  intro h
  have h' := congrArg String.data h
  rw [String.data_append] at h'
  change ['a', 'r', 't', 'i', 'c', 'l', 'e', ':'] ++ id.data
    = ['a', 'r', 't', 'i', 'c', 'l', 'e', 's', ':', 'l', 'i', 's', 't'] at h'
  simp at h'

/-- The mock cache after a successful `CreateArticle`. -/
theorem CreateArticle_mock_data (unixNano now : Int) (db : Store) (m : MockCacheService)
    (req : CreateArticleRequest) (a : Article)
    (h : (CreateArticle mockCache unixNano now db m req).result = .ok a) (k : String) :
    (CreateArticle mockCache unixNano now db m req).cache.data k
      = if k = "articles:list" then none
        else if k = "article:" ++ a.ID then some (.article a) else m.data k := by
  obtain ⟨-, -, au, -, -, hc⟩ := CreateArticle_ok mockCache unixNano now db m req a h
  rw [hc]
  rfl

/-- C5, as stated, fails: after the successful create of article `article-42`
on the in-memory cache, `Get` on key `article:article-42` with a
`*models.Article` destination returns the error `type assertion failed`. -/
theorem CreateArticle_mock_get_counterexample :
    (CreateArticle mockCache 42 43 ⟨[⟨"a1", "Ada"⟩], [], true⟩ NewMockCacheService
        ⟨"a1", "Hello", "World"⟩).result
      = .ok ⟨"article-42", "a1", "Hello", "World", 43, some ⟨"a1", "Ada"⟩⟩
    ∧ (MockCacheService.Get
        (CreateArticle mockCache 42 43 ⟨[⟨"a1", "Ada"⟩], [], true⟩ NewMockCacheService
          ⟨"a1", "Hello", "World"⟩).cache
        ("article:" ++ "article-42") Dest.articlePtr).1
      = .error "type assertion failed" :=
  ⟨rfl, rfl⟩

/-- C5, amended: after every successful `CreateArticle` on the in-memory cache,
the cache holds under key `"article:" + id` the returned `Article`; a `Get`
on that key does not report `key not found` but, for every destination shape
(an `Article`-shaped one included), fails with `type assertion failed`, as the
in-memory `Get` only serves a `[]interface{}` value into a `*[]interface{}`. -/
theorem CreateArticle_mock_cache_entry (unixNano now : Int) (db : Store) (m : MockCacheService)
    (req : CreateArticleRequest) (a : Article)
    (h : (CreateArticle mockCache unixNano now db m req).result = .ok a) :
    (CreateArticle mockCache unixNano now db m req).cache.data ("article:" ++ a.ID)
      = some (.article a)
    ∧ ∀ dest : Dest,
        (mockCache.Get (CreateArticle mockCache unixNano now db m req).cache
          ("article:" ++ a.ID) dest).1 = .error "type assertion failed" := by
  have hd : (CreateArticle mockCache unixNano now db m req).cache.data ("article:" ++ a.ID)
      = some (.article a) := by
    rw [CreateArticle_mock_data unixNano now db m req a h, if_neg (articleKey_ne_listKey _),
      if_pos rfl]
  refine ⟨hd, fun dest => ?_⟩
  show (MockCacheService.Get _ _ dest).1 = _
  unfold MockCacheService.Get
  rw [hd]
  cases dest <;> rfl

/-- The cache entry left by a concrete create on the in-memory cache. -/
theorem CreateArticle_mock_cache_entry_witness :
    (CreateArticle mockCache 42 43 ⟨[⟨"a1", "Ada"⟩], [], true⟩ NewMockCacheService
        ⟨"a1", "Hello", "World"⟩).cache.data ("article:" ++ "article-42")
      = some (.article ⟨"article-42", "a1", "Hello", "World", 43, some ⟨"a1", "Ada"⟩⟩) :=
  (CreateArticle_mock_cache_entry 42 43 ⟨[⟨"a1", "Ada"⟩], [], true⟩ NewMockCacheService
    ⟨"a1", "Hello", "World"⟩ ⟨"article-42", "a1", "Hello", "World", 43, some ⟨"a1", "Ada"⟩⟩ rfl).1

/-! ## Cache failures -/

/-- C6: when the insert and the author re-fetch succeed, `CreateArticle`
returns success with the article made of the request, the clock readings and
the fetched author, for every cache implementation and cache state; so the
returned pair is the same over the in-memory cache, whose operations succeed,
and over a cache whose operations all fail. -/
theorem CreateArticle_cache_errors_swallowed {σ : Type} (cache : CacheServiceInterface σ)
    (unixNano now : Int) (db : Store) (c : σ) (req : CreateArticleRequest)
    (row : ArticleRow) (db' : Store) (author : Author)
    (hins : db.insertArticle
      { id := "article-" ++ toString unixNano, author_id := req.AuthorID, title := req.Title,
        body := req.Body, created_at := now } = (.ok row, db'))
    (hsel : db'.selectAuthor req.AuthorID = .ok author) :
    (CreateArticle cache unixNano now db c req).result
        = .ok { ID := "article-" ++ toString unixNano, AuthorID := req.AuthorID,
                Title := req.Title, Body := req.Body, CreatedAt := now, Author := some author }
    ∧ (CreateArticle cache unixNano now db c req).result
        = (CreateArticle mockCache unixNano now db NewMockCacheService req).result
    ∧ (CreateArticle cache unixNano now db c req).result
        = (CreateArticle failingCache unixNano now db () req).result := by
  have h1 := (CreateArticle_success cache unixNano now db c req row author db' hins hsel).1
  have h2 := (CreateArticle_success mockCache unixNano now db NewMockCacheService req row author
    db' hins hsel).1
  have h3 := (CreateArticle_success failingCache unixNano now db () req row author db' hins hsel).1
  exact ⟨h1, h1.trans h2.symm, h1.trans h3.symm⟩

/-- A create over a cache whose operations all fail succeeds and logs both failures. -/
theorem CreateArticle_cache_errors_swallowed_witness :
    (CreateArticle failingCache 42 43 ⟨[⟨"a1", "Ada"⟩], [], true⟩ () ⟨"a1", "Hello", "World"⟩).result
        = .ok ⟨"article-42", "a1", "Hello", "World", 43, some ⟨"a1", "Ada"⟩⟩
    ∧ (CreateArticle failingCache 42 43 ⟨[⟨"a1", "Ada"⟩], [], true⟩ () ⟨"a1", "Hello", "World"⟩).log
        = ["Failed to cache created article: failed to set cache: connection refused\n",
           "Failed to invalidate cache: failed to delete from cache: connection refused\n"] :=
  ⟨(CreateArticle_cache_errors_swallowed failingCache 42 43 ⟨[⟨"a1", "Ada"⟩], [], true⟩ ()
      ⟨"a1", "Hello", "World"⟩ ⟨"article-42", "a1", "Hello", "World", 43⟩
      ⟨[⟨"a1", "Ada"⟩], [⟨"article-42", "a1", "Hello", "World", 43⟩], true⟩ ⟨"a1", "Ada"⟩
      rfl rfl).1, rfl⟩

/-! ## Identifiers -/

theorem digitVal_digitChar : ∀ k, k < 10 → digitVal (Nat.digitChar k) = k := by decide

theorem digitChar_ne_minus : ∀ k, k < 10 → Nat.digitChar k ≠ '-' := by decide

theorem toDigitsCore_append (fuel : Nat) : ∀ (n : Nat) (ds : List Char),
    Nat.toDigitsCore 10 fuel n ds = Nat.toDigitsCore 10 fuel n [] ++ ds := by
  induction fuel with
  | zero => intro n ds; simp [Nat.toDigitsCore]
  | succ fuel ih =>
    intro n ds
    simp only [Nat.toDigitsCore]
    split_ifs with h
    · simp
    · rw [ih (n / 10) (Nat.digitChar (n % 10) :: ds), ih (n / 10) [Nat.digitChar (n % 10)]]
      simp

theorem decodeDigits_snoc (xs : List Char) (d : Char) :
    decodeDigits (xs ++ [d]) = 10 * decodeDigits xs + digitVal d := by
  simp [decodeDigits, List.foldl_append]

theorem decodeDigits_toDigitsCore (fuel : Nat) : ∀ n, n < fuel →
    decodeDigits (Nat.toDigitsCore 10 fuel n []) = n := by
  induction fuel with
  | zero => intro n h; omega
  | succ fuel ih =>
    intro n hn
    simp only [Nat.toDigitsCore]
    split_ifs with h
    · have h10 : n % 10 < 10 := Nat.mod_lt _ (by decide)
      have : decodeDigits [Nat.digitChar (n % 10)] = digitVal (Nat.digitChar (n % 10)) := by
        simp [decodeDigits]
      rw [this, digitVal_digitChar _ h10]
      omega
    · rw [toDigitsCore_append, decodeDigits_snoc, ih (n / 10) (by omega),
        digitVal_digitChar _ (Nat.mod_lt _ (by decide))]
      omega

theorem toDigitsCore_minus (fuel : Nat) : ∀ (n : Nat) (ds : List Char),
    '-' ∈ Nat.toDigitsCore 10 fuel n ds → '-' ∈ ds := by
  induction fuel with
  | zero => intro n ds h; simpa [Nat.toDigitsCore] using h
  | succ fuel ih =>
    intro n ds h
    simp only [Nat.toDigitsCore] at h
    have hd : Nat.digitChar (n % 10) ≠ '-' := digitChar_ne_minus _ (Nat.mod_lt _ (by decide))
    split_ifs at h with h0
    · rcases List.mem_cons.1 h with h | h
      · exact absurd h.symm hd
      · exact h
    · rcases List.mem_cons.1 (ih _ _ h) with h | h
      · exact absurd h.symm hd
      · exact h

theorem Nat_repr_data (n : Nat) : (Nat.repr n).data = Nat.toDigits 10 n := rfl

theorem Nat_repr_injective (a b : Nat) (h : Nat.repr a = Nat.repr b) : a = b := by
  have h' : Nat.toDigits 10 a = Nat.toDigits 10 b := by
    rw [← Nat_repr_data, ← Nat_repr_data, h]
  have ha := decodeDigits_toDigitsCore (a + 1) a (Nat.lt_succ_self a)
  have hb := decodeDigits_toDigitsCore (b + 1) b (Nat.lt_succ_self b)
  unfold Nat.toDigits at h'
  rw [h'] at ha
  omega

theorem Int_toString_injective (i j : Int) (h : toString i = toString j) : i = j := by
  cases i with
  | ofNat m =>
    cases j with
    | ofNat n =>
      have : Nat.repr m = Nat.repr n := h
      rw [Nat_repr_injective m n this]
    | negSucc n =>
      exfalso
      have h1 : Nat.repr m = "-" ++ Nat.repr (n + 1) := h
      have h2 := congrArg String.data h1
      rw [Nat_repr_data, String.data_append] at h2
      have h3 : '-' ∈ Nat.toDigits 10 m := by
        rw [h2]; exact List.mem_append_left _ (by decide)
      exact absurd (toDigitsCore_minus _ _ _ h3) (by simp)
  | negSucc m =>
    cases j with
    | ofNat n =>
      exfalso
      have h1 : "-" ++ Nat.repr (m + 1) = Nat.repr n := h
      have h2 := congrArg String.data h1
      rw [Nat_repr_data, String.data_append] at h2
      have h3 : '-' ∈ Nat.toDigits 10 n := by
        rw [← h2]; exact List.mem_append_left _ (by decide)
      exact absurd (toDigitsCore_minus _ _ _ h3) (by simp)
    | negSucc n =>
      have h1 : "-" ++ Nat.repr (m + 1) = "-" ++ Nat.repr (n + 1) := h
      have h2 := congrArg String.data h1
      rw [String.data_append, String.data_append] at h2
      have h3 : Nat.repr (m + 1) = Nat.repr (n + 1) :=
        String.ext (List.append_cancel_left h2)
      have := Nat_repr_injective _ _ h3
      have : m = n := by omega
      rw [this]

/-- The id is a function of the clock reading alone, and an injective one. -/
theorem articleId_injective (i j : Int)
    (h : "article-" ++ toString i = "article-" ++ toString j) : i = j := by
  have h2 := congrArg String.data h
  rw [String.data_append, String.data_append] at h2
  exact Int_toString_injective i j (String.ext (List.append_cancel_left h2))

theorem articleId_ne_empty (i : Int) : "article-" ++ toString i ≠ "" := by
  intro h
  have h2 := congrArg String.data h
  rw [String.data_append] at h2
  change ['a', 'r', 't', 'i', 'c', 'l', 'e', '-'] ++ (toString i).data = [] at h2
  simp at h2

/-- The ids returned by two successful `CreateArticle` calls are equal exactly
when the two clock readings are equal; and when the second call runs on a
store that still holds the rows the first call left, the two ids differ, the
insert of a present id being rejected by the primary key. -/
theorem CreateArticle_ids_distinct {σ τ : Type} (cache₁ : CacheServiceInterface σ)
    (cache₂ : CacheServiceInterface τ) (t₁ now₁ t₂ now₂ : Int) (db₁ db₂ : Store)
    (c₁ : σ) (c₂ : τ) (req₁ req₂ : CreateArticleRequest) (a₁ a₂ : Article)
    (h₁ : (CreateArticle cache₁ t₁ now₁ db₁ c₁ req₁).result = .ok a₁)
    (h₂ : (CreateArticle cache₂ t₂ now₂ db₂ c₂ req₂).result = .ok a₂) :
    (a₁.ID = a₂.ID ↔ t₁ = t₂)
    ∧ ((CreateArticle cache₁ t₁ now₁ db₁ c₁ req₁).db.articles ⊆ db₂.articles → a₁.ID ≠ a₂.ID) := by
  obtain ⟨-, hdb₁, au₁, -, ha₁, -⟩ := CreateArticle_ok cache₁ t₁ now₁ db₁ c₁ req₁ a₁ h₁
  obtain ⟨hfresh₂, -, au₂, -, ha₂, -⟩ := CreateArticle_ok cache₂ t₂ now₂ db₂ c₂ req₂ a₂ h₂
  have hid₁ : a₁.ID = "article-" ++ toString t₁ := by rw [ha₁]
  have hid₂ : a₂.ID = "article-" ++ toString t₂ := by rw [ha₂]
  refine ⟨⟨fun h => ?_, fun h => ?_⟩, fun hsub heq => ?_⟩
  · rw [hid₁, hid₂] at h
    exact articleId_injective _ _ h
  · rw [hid₁, hid₂, h]
  · have hmem : (⟨"article-" ++ toString t₁, req₁.AuthorID, req₁.Title, req₁.Body, now₁⟩ :
        ArticleRow) ∈ db₂.articles := by
      apply hsub
      rw [hdb₁]
      simp
    rw [List.any_eq_false] at hfresh₂
    have := hfresh₂ _ hmem
    apply this
    rw [← hid₁, ← hid₂, heq]
    simp

/-- `CreateArticle` removes no row of `articles`, whether it succeeds or not. -/
theorem CreateArticle_db_articles {σ : Type} (cache : CacheServiceInterface σ)
    (unixNano now : Int) (db : Store) (c : σ) (req : CreateArticleRequest) :
    db.articles ⊆ (CreateArticle cache unixNano now db c req).db.articles := by
  rcases hins : db.insertArticle
      { id := "article-" ++ toString unixNano, author_id := req.AuthorID, title := req.Title,
        body := req.Body, created_at := now } with ⟨r, db'⟩
  cases r with
  | error e =>
    rw [CreateArticle_insert_error cache unixNano now db c req e db' hins,
      insertArticle_error _ _ _ _ hins]
    exact fun _ h => h
  | ok row =>
    obtain ⟨-, hdb, -⟩ := insertArticle_ok _ _ _ _ hins
    have hsub : db.articles ⊆ db'.articles := by
      rw [hdb]
      exact fun _ h => List.mem_append_left _ h
    cases hsel : db'.selectAuthor req.AuthorID with
    | error e =>
      rw [CreateArticle_fetch_error cache unixNano now db c req row e db' hins hsel]
      exact hsub
    | ok author =>
      rw [(CreateArticle_success cache unixNano now db c req row author db' hins hsel).2.1]
      exact hsub

/-- A store the repository reaches later holds every row of the earlier one. -/
theorem Reaches_articles_subset {s s' : Store} (h : Store.Reaches s s') :
    s.articles ⊆ s'.articles := by
  induction h with
  | refl => exact fun _ h => h
  | create cache unixNano now c req _ ih =>
    exact fun x hx => CreateArticle_db_articles cache unixNano now _ c req (ih hx)

/-- C7: the Article id is unique.  For any two successful `CreateArticle`
calls of a repository, the second one running on the store the first one left
or on a store reached from it by any further calls, with the same or with
different requests and whatever the two clock readings are, the two returned
ids are different.  The id is made from the clock reading alone, and it is the
primary key of `articles` that keeps the ids apart: a second call whose clock
reading equals that of the first does not succeed, it fails with the wrapped
`failed to create article` error of the rejected insert. -/
theorem CreateArticle_ids_unique {σ τ : Type} (cache₁ : CacheServiceInterface σ)
    (cache₂ : CacheServiceInterface τ) (t₁ now₁ t₂ now₂ : Int) (db₁ db₂ : Store)
    (c₁ : σ) (c₂ : τ) (req₁ req₂ : CreateArticleRequest) (a₁ : Article)
    (h₁ : (CreateArticle cache₁ t₁ now₁ db₁ c₁ req₁).result = .ok a₁)
    (hlater : Store.Reaches (CreateArticle cache₁ t₁ now₁ db₁ c₁ req₁).db db₂) :
    (∀ a₂, (CreateArticle cache₂ t₂ now₂ db₂ c₂ req₂).result = .ok a₂ → a₁.ID ≠ a₂.ID)
    ∧ (t₂ = t₁ → (CreateArticle cache₂ t₂ now₂ db₂ c₂ req₂).result
        = .error (.wrapped "failed to create article" .uniqueViolation)) := by
  have hsub := Reaches_articles_subset hlater
  refine ⟨fun a₂ h₂ => (CreateArticle_ids_distinct cache₁ cache₂ t₁ now₁ t₂ now₂ db₁ db₂
    c₁ c₂ req₁ req₂ a₁ a₂ h₁ h₂).2 hsub, fun ht => ?_⟩
  rw [ht]
  obtain ⟨-, hdb₁, -⟩ := CreateArticle_ok cache₁ t₁ now₁ db₁ c₁ req₁ a₁ h₁
  have hmem : (⟨"article-" ++ toString t₁, req₁.AuthorID, req₁.Title, req₁.Body, now₁⟩ :
      ArticleRow) ∈ db₂.articles := by
    apply hsub
    rw [hdb₁]
    simp
  have hany : db₂.articles.any (fun r => r.id == "article-" ++ toString t₁) = true := by
    rw [List.any_eq_true]
    exact ⟨_, hmem, by simp⟩
  have hins : db₂.insertArticle
      { id := "article-" ++ toString t₁, author_id := req₂.AuthorID, title := req₂.Title,
        body := req₂.Body, created_at := now₂ } = (.error .uniqueViolation, db₂) := by
    unfold Store.insertArticle
    rw [if_pos hany]
  rw [CreateArticle_insert_error cache₂ t₁ now₂ db₂ c₂ req₂ _ _ hins]

/-- Three calls on one store: a create at clock reading 42, a create at
reading 7 in between, and then a create at reading 43, whose id differs from
the first, and a create at reading 42 again, which is rejected. -/
theorem CreateArticle_ids_unique_witness :
    "article-42" ≠ "article-43"
    ∧ (CreateArticle mockCache 42 53
        (CreateArticle failingCache 7 51
          (CreateArticle mockCache 42 50 ⟨[⟨"a1", "Ada"⟩], [], true⟩ NewMockCacheService
            ⟨"a1", "Hello", "World"⟩).db () ⟨"a1", "Between", "Text"⟩).db
        NewMockCacheService ⟨"a1", "Hello", "World"⟩).result
      = .error (.wrapped "failed to create article" .uniqueViolation) :=
  ⟨(CreateArticle_ids_unique mockCache mockCache 42 50 43 52 ⟨[⟨"a1", "Ada"⟩], [], true⟩
      (CreateArticle failingCache 7 51
        (CreateArticle mockCache 42 50 ⟨[⟨"a1", "Ada"⟩], [], true⟩ NewMockCacheService
          ⟨"a1", "Hello", "World"⟩).db () ⟨"a1", "Between", "Text"⟩).db
      NewMockCacheService NewMockCacheService ⟨"a1", "Hello", "World"⟩ ⟨"a1", "Again", "Text"⟩
      ⟨"article-42", "a1", "Hello", "World", 50, some ⟨"a1", "Ada"⟩⟩ rfl
      (.create failingCache 7 51 () ⟨"a1", "Between", "Text"⟩ (.refl _))).1
      ⟨"article-43", "a1", "Again", "Text", 52, some ⟨"a1", "Ada"⟩⟩ rfl,
   (CreateArticle_ids_unique mockCache mockCache 42 50 42 53 ⟨[⟨"a1", "Ada"⟩], [], true⟩
      (CreateArticle failingCache 7 51
        (CreateArticle mockCache 42 50 ⟨[⟨"a1", "Ada"⟩], [], true⟩ NewMockCacheService
          ⟨"a1", "Hello", "World"⟩).db () ⟨"a1", "Between", "Text"⟩).db
      NewMockCacheService NewMockCacheService ⟨"a1", "Hello", "World"⟩ ⟨"a1", "Hello", "World"⟩
      ⟨"article-42", "a1", "Hello", "World", 50, some ⟨"a1", "Ada"⟩⟩ rfl
      (.create failingCache 7 51 () ⟨"a1", "Between", "Text"⟩ (.refl _))).2 rfl⟩

/-! ## The returned article -/

theorem AuthorsPK_unique (s : Store) (hpk : s.AuthorsPK) (x y : Author)
    (hx : x ∈ s.authors) (hy : y ∈ s.authors) (h : x.ID = y.ID) : x = y := by
  have hp : s.authors.Pairwise fun x y => x.ID = y.ID → x = y :=
    List.Pairwise.imp (fun hne he => absurd he hne) hpk
  have hsymm : Symmetric fun x y : Author => x.ID = y.ID → x = y :=
    fun a b hab he => (hab he.symm).symm
  exact List.Pairwise.forall_of_forall hsymm (fun _ _ _ => rfl) hp hx hy h

theorem selectAuthor_of_mem (s : Store) (au : Author) (hpk : s.AuthorsPK) (hau : au ∈ s.authors) :
    s.selectAuthor au.ID = .ok au := by
  unfold Store.selectAuthor
  cases hf : s.authors.find? (fun x => x.ID == au.ID) with
  | none =>
    rw [List.find?_eq_none] at hf
    exact absurd (by simp) (hf au hau)
  | some x =>
    have hx : x ∈ s.authors := List.mem_of_find?_eq_some hf
    have hid : x.ID = au.ID := by simpa using List.find?_some hf
    rw [AuthorsPK_unique s hpk x au hx hau hid]

/-- C8: when the request's `author_id` names an existing author row, every
successful `CreateArticle` returns an article with a non-empty id, with
`author_id`, title and body equal to the request's, and with an embedded
author that is the stored row (its id the request's `author_id`, its name the
stored name); and the call does succeed whenever the generated id is not yet
in the store. -/
theorem CreateArticle_returns_request_and_author {σ : Type} (cache : CacheServiceInterface σ)
    (unixNano now : Int) (db : Store) (c : σ) (req : CreateArticleRequest) (au : Author)
    (hpk : db.AuthorsPK) (hau : au ∈ db.authors) (hid : au.ID = req.AuthorID) :
    (∀ a, (CreateArticle cache unixNano now db c req).result = .ok a →
        a.ID ≠ "" ∧ a.AuthorID = req.AuthorID ∧ a.Title = req.Title ∧ a.Body = req.Body
        ∧ a.Author = some au ∧ au.ID = req.AuthorID)
    ∧ (db.articles.any (fun x => x.id == "article-" ++ toString unixNano) = false →
        ∃ a, (CreateArticle cache unixNano now db c req).result = .ok a) := by
  have hsel : db.selectAuthor req.AuthorID = .ok au := hid ▸ selectAuthor_of_mem db au hpk hau
  constructor
  · intro a h
    obtain ⟨-, -, au', hsel', ha, -⟩ := CreateArticle_ok cache unixNano now db c req a h
    rw [hsel] at hsel'
    simp only [Except.ok.injEq] at hsel'
    subst hsel'
    subst ha
    exact ⟨articleId_ne_empty _, rfl, rfl, rfl, rfl, hid⟩
  · intro hfresh
    have hins : db.insertArticle
        { id := "article-" ++ toString unixNano, author_id := req.AuthorID, title := req.Title,
          body := req.Body, created_at := now }
        = (.ok { id := "article-" ++ toString unixNano, author_id := req.AuthorID,
                 title := req.Title, body := req.Body, created_at := now },
           { db with articles := db.articles ++
              [{ id := "article-" ++ toString unixNano, author_id := req.AuthorID,
                 title := req.Title, body := req.Body, created_at := now }] }) := by
      unfold Store.insertArticle
      have hex : db.authors.any (fun x => x.ID == req.AuthorID) = true :=
        List.any_eq_true.2 ⟨au, hau, by simp [hid]⟩
      simp only [hfresh, hex]
      simp
    exact ⟨_, (CreateArticle_success cache unixNano now db c req _ au _ hins hsel).1⟩

/-- A create for the stored author `a1` named `Ada`. -/
theorem CreateArticle_returns_request_and_author_witness :
    ∃ a, (CreateArticle mockCache 42 43
        ⟨[⟨"a1", "Ada"⟩, ⟨"a2", "Grace"⟩], [], false⟩ NewMockCacheService
        ⟨"a1", "Hello", "World"⟩).result = .ok a
      ∧ a.ID ≠ "" ∧ a.AuthorID = "a1" ∧ a.Author = some ⟨"a1", "Ada"⟩ :=
  have h := CreateArticle_returns_request_and_author mockCache 42 43
    ⟨[⟨"a1", "Ada"⟩, ⟨"a2", "Grace"⟩], [], false⟩ NewMockCacheService
    ⟨"a1", "Hello", "World"⟩ ⟨"a1", "Ada"⟩ (by decide) (by decide) rfl
  ⟨_, rfl, (h.1 _ rfl).1, (h.1 _ rfl).2.1, (h.1 _ rfl).2.2.2.2.1⟩

/-! ## The two statements of `ListArticles` on a store snapshot -/

theorem filter_matches_congr (params : ListArticlesParams) (rows : List JoinedRow)
    (f : JoinedRow → Bool) (hf : ∀ r, f r = matchesFilter params r) :
    rows.filter f = rows.filter (matchesFilter params) :=
  List.filter_congr (fun r _ => hf r)

theorem plan_count (db : Store) (params : ListArticlesParams) :
    db.QueryRowCount (ListArticles.plan params).whereConditions (ListArticles.plan params).args
      = .ok ((db.joined.filter (matchesFilter params)).length : Int) := by
  by_cases h1 : params.Search = "" <;> by_cases h2 : params.AuthorName = ""
  · rw [← filter_matches_congr params db.joined (fun _ => true)
      (by intro r; simp [matchesFilter, h1, h2])]
    simp [Store.QueryRowCount, ListArticles.plan, h1, h2, compileWhere, requiredParams, pure,
      Except.pure, bind, Except.bind]
  · rw [← filter_matches_congr params db.joined
      (fun r => authorILike r.au ("%" ++ params.AuthorName ++ "%") && true)
      (by intro r; simp [matchesFilter, h1, h2])]
    simp [Store.QueryRowCount, ListArticles.plan, h1, h2, compileWhere, requiredParams, pure,
      Except.pure, bind, Except.bind, Cond.compile, Cond.index, lookupStr]
  · rw [← filter_matches_congr params db.joined
      (fun r => (ilike r.a.title ("%" ++ params.Search ++ "%")
        || ilike r.a.body ("%" ++ params.Search ++ "%")) && true)
      (by intro r; simp [matchesFilter, h1, h2])]
    simp [Store.QueryRowCount, ListArticles.plan, h1, h2, compileWhere, requiredParams, pure,
      Except.pure, bind, Except.bind, Cond.compile, Cond.index, lookupStr]
  · rw [← filter_matches_congr params db.joined
      (fun r => (ilike r.a.title ("%" ++ params.Search ++ "%")
        || ilike r.a.body ("%" ++ params.Search ++ "%"))
        && (authorILike r.au ("%" ++ params.AuthorName ++ "%") && true))
      (by intro r; simp [matchesFilter, h1, h2])]
    simp [Store.QueryRowCount, ListArticles.plan, h1, h2, compileWhere, requiredParams, pure,
      Except.pure, bind, Except.bind, Cond.compile, Cond.index, lookupStr]

theorem plan_query (db : Store) (params : ListArticlesParams) :
    db.Query (ListArticles.plan params).whereConditions (ListArticles.plan params).argIndex
        ((ListArticles.plan params).argIndex + 1) (ListArticles.plan params).pageArgs
      = if (ListArticles.plan params).offset < 0 then .error .negativeOffset
        else .ok (pageSlice db params) := by
  have hl : ¬ normLimit params.Limit < 0 := by
    have := (normLimit_range params.Limit).1; omega
  unfold pageSlice
  by_cases h1 : params.Search = "" <;> by_cases h2 : params.AuthorName = ""
  · rw [← filter_matches_congr params db.joined (fun _ => true)
      (by intro r; simp [matchesFilter, h1, h2])]
    simp [Store.Query, ListArticles.plan, h1, h2, compileWhere, requiredParams, pure,
      Except.pure, bind, Except.bind, lookupInt, hl]
  · rw [← filter_matches_congr params db.joined
      (fun r => authorILike r.au ("%" ++ params.AuthorName ++ "%") && true)
      (by intro r; simp [matchesFilter, h1, h2])]
    simp [Store.Query, ListArticles.plan, h1, h2, compileWhere, requiredParams, pure,
      Except.pure, bind, Except.bind, Cond.compile, Cond.index, lookupStr, lookupInt, hl]
  · rw [← filter_matches_congr params db.joined
      (fun r => (ilike r.a.title ("%" ++ params.Search ++ "%")
        || ilike r.a.body ("%" ++ params.Search ++ "%")) && true)
      (by intro r; simp [matchesFilter, h1, h2])]
    simp [Store.Query, ListArticles.plan, h1, h2, compileWhere, requiredParams, pure,
      Except.pure, bind, Except.bind, Cond.compile, Cond.index, lookupStr, lookupInt, hl]
  · rw [← filter_matches_congr params db.joined
      (fun r => (ilike r.a.title ("%" ++ params.Search ++ "%")
        || ilike r.a.body ("%" ++ params.Search ++ "%"))
        && (authorILike r.au ("%" ++ params.AuthorName ++ "%") && true))
      (by intro r; simp [matchesFilter, h1, h2])]
    simp [Store.Query, ListArticles.plan, h1, h2, compileWhere, requiredParams, pure,
      Except.pure, bind, Except.bind, Cond.compile, Cond.index, lookupStr, lookupInt, hl]

theorem scanRows_ok (rows : List JoinedRow) (items : List ArticleListItem)
    (h : scanRows rows = .ok items) : items = rows.map JoinedRow.item := by
  induction rows generalizing items with
  | nil => simp [scanRows] at h; simp [h]
  | cons r rs ih =>
    unfold scanRows at h
    cases hr : scanRow r with
    | error e => simp [hr] at h
    | ok item =>
      cases hrs : scanRows rs with
      | error e => simp [hr, hrs] at h
      | ok rest =>
        simp only [hr, hrs, Except.ok.injEq] at h
        subst h
        have hitem : item = r.item := by
          unfold scanRow at hr
          split at hr
          · simp at hr
          · rename_i au hau
            simp only [Except.ok.injEq] at hr
            subst hr
            simp [JoinedRow.item, hau]
        rw [ih rest hrs, hitem]
        rfl

theorem scanRows_of_authors (rows : List JoinedRow) (h : ∀ r ∈ rows, r.au ≠ none) :
    scanRows rows = .ok (rows.map JoinedRow.item) := by
  induction rows with
  | nil => rfl
  | cons r rs ih =>
    have hr : r.au ≠ none := h r (List.mem_cons_self _ _)
    have hrs := ih (fun x hx => h x (List.mem_cons_of_mem _ hx))
    unfold scanRows
    rw [hrs]
    unfold scanRow
    cases hau : r.au with
    | none => exact absurd hau hr
    | some au => simp [JoinedRow.item, hau]

theorem joined_author_of_referential (db : Store) (h : db.Referential) :
    ∀ r ∈ db.joined, r.au ≠ none := by
  intro r hr
  unfold Store.joined at hr
  rw [List.mem_flatMap] at hr
  obtain ⟨a, ha, hr⟩ := hr
  unfold Store.joinArticle at hr
  obtain ⟨au, hau, hid⟩ := h a ha
  have hne : db.authors.filter (fun x => x.ID == a.author_id) ≠ [] := by
    intro hnil
    have : au ∈ db.authors.filter (fun x => x.ID == a.author_id) := by
      rw [List.mem_filter]; exact ⟨hau, by simp [hid]⟩
    rw [hnil] at this
    simp at this
  split at hr
  · rename_i hnil; exact absurd hnil hne
  · rw [List.mem_map] at hr
    obtain ⟨x, -, hx⟩ := hr
    rw [← hx]
    simp

theorem pageSlice_subset_joined (db : Store) (params : ListArticlesParams) :
    ∀ r ∈ pageSlice db params, r ∈ db.joined := by
  intro r hr
  unfold pageSlice at hr
  have h1 := List.mem_of_mem_drop (List.mem_of_mem_take hr)
  unfold sortByCreatedAtDesc at h1
  have h2 := (List.perm_insertionSort _ _).mem_iff.1 h1
  exact (List.mem_filter.1 h2).1

theorem filter_id_length_le_one (l : List Author) (k : String)
    (h : l.Pairwise fun x y => x.ID ≠ y.ID) :
    (l.filter (fun au => au.ID == k)).length ≤ 1 := by
  induction l with
  | nil => simp
  | cons x xs ih =>
    rw [List.pairwise_cons] at h
    by_cases hx : x.ID = k
    · have hnil : xs.filter (fun au => au.ID == k) = [] := by
        rw [List.filter_eq_nil_iff]
        intro y hy
        have := h.1 y hy
        simp only [beq_iff_eq]
        intro hyk
        exact this (hx.trans hyk.symm)
      simp [List.filter_cons, hx, hnil]
    · simpa [List.filter_cons, hx] using ih h.2

theorem joinArticle_of_pk (db : Store) (hpk : db.AuthorsPK) (a : ArticleRow) :
    (db.joinArticle a).map JoinedRow.a = [a] := by
  have hlen := filter_id_length_le_one db.authors a.author_id hpk
  unfold Store.joinArticle
  split
  · rfl
  · rename_i aus hne
    cases haus : db.authors.filter (fun au => au.ID == a.author_id) with
    | nil => exact absurd haus (by simpa using hne)
    | cons au rest =>
      rw [haus] at hlen
      cases rest with
      | nil => rfl
      | cons _ _ => simp at hlen

/-- Under the primary key of `authors` the joined rows are the article rows,
one for one and in the same order. -/
theorem joined_articles_of_pk (db : Store) (hpk : db.AuthorsPK) :
    db.joined.map JoinedRow.a = db.articles := by
  unfold Store.joined
  induction db.articles with
  | nil => rfl
  | cons a as ih =>
    rw [List.flatMap_cons, List.map_append, ih, joinArticle_of_pk db hpk a]
    rfl
/-- The result of `ListArticles` on a store snapshot, in closed form. -/
theorem ListArticles_eq (db : Store) (params : ListArticlesParams) :
    ListArticles db params
      = if (ListArticles.plan params).offset < 0 then
          .error (.wrapped "failed to query articles" .negativeOffset)
        else match scanRows (pageSlice db params) with
          | .error e => .error (.wrapped "failed to scan article" e)
          | .ok articles =>
            .ok { Articles := articles,
                  Total := ((db.joined.filter (matchesFilter params)).length : Int),
                  Page := (ListArticles.plan params).Page,
                  Limit := (ListArticles.plan params).Limit } := by
  unfold ListArticles
  simp only [plan_count, plan_query]
  split_ifs with h
  · rfl
  · rfl

theorem matchesFilter_congr (p q : ListArticlesParams) (hs : q.Search = p.Search)
    (ha : q.AuthorName = p.AuthorName) : matchesFilter q = matchesFilter p := by
  funext r
  simp [matchesFilter, hs, ha]

/-- C9: on a store snapshot, every result of `ListArticles` has as `Total` the
number of joined rows selected by the filters, and as `Articles` the rows
`[offset, offset + limit)` of the selected rows sorted by `created_at`
descending (a permutation of the selected rows, sorted), so that
`len(Articles) = min(limit, max(0, Total - offset))`; `Total` is the same for
all pages and limits; a result is returned whenever the bound offset is not
negative and every article row names an author row; and under the primary
key of `authors` the joined rows are the article rows, one for one. -/
theorem ListArticles_total_and_page (db : Store) (params : ListArticlesParams) :
    (∀ r, ListArticles db params = .ok r →
        r.Total = ((db.joined.filter (matchesFilter params)).length : Int)
        ∧ r.Articles
            = (((sortByCreatedAtDesc (db.joined.filter (matchesFilter params))).drop
                (ListArticles.plan params).offset.toNat).take
                (ListArticles.plan params).Limit.toNat).map JoinedRow.item
        ∧ 0 ≤ (ListArticles.plan params).offset
        ∧ (r.Articles.length : Int)
            = min (ListArticles.plan params).Limit
                (max 0 (r.Total - (ListArticles.plan params).offset)))
    ∧ (sortByCreatedAtDesc (db.joined.filter (matchesFilter params))).Perm
        (db.joined.filter (matchesFilter params))
    ∧ (sortByCreatedAtDesc (db.joined.filter (matchesFilter params))).Sorted
        (fun x y => y.a.created_at ≤ x.a.created_at)
    ∧ (∀ params' r r', params'.Search = params.Search → params'.AuthorName = params.AuthorName →
        ListArticles db params = .ok r → ListArticles db params' = .ok r' → r'.Total = r.Total)
    ∧ (db.Referential → 0 ≤ (ListArticles.plan params).offset →
        ∃ r, ListArticles db params = .ok r)
    ∧ (db.AuthorsPK → db.joined.map JoinedRow.a = db.articles) := by
  have htotal : ∀ (p : ListArticlesParams) (r : ListArticlesResult), ListArticles db p = .ok r →
      r.Total = ((db.joined.filter (matchesFilter p)).length : Int)
      ∧ r.Articles = (pageSlice db p).map JoinedRow.item
      ∧ 0 ≤ (ListArticles.plan p).offset := by
    intro p r h
    rw [ListArticles_eq] at h
    split_ifs at h with hneg
    cases hs : scanRows (pageSlice db p) with
    | error e => simp [hs] at h
    | ok items =>
      simp only [hs, Except.ok.injEq] at h
      subst h
      exact ⟨rfl, scanRows_ok _ _ hs, by omega⟩
  refine ⟨?_, ?_, ?_, ?_, ?_, joined_articles_of_pk db⟩
  · intro r h
    obtain ⟨ht, ha, ho⟩ := htotal params r h
    refine ⟨ht, ha, ho, ?_⟩
    have hl := normLimit_range params.Limit
    rw [ha, ht, List.length_map]
    unfold pageSlice
    rw [List.length_take, List.length_drop]
    unfold sortByCreatedAtDesc
    rw [List.length_insertionSort, plan_Limit]
    omega
  · exact List.perm_insertionSort _ _
  · haveI : IsTotal JoinedRow (fun x y => y.a.created_at ≤ x.a.created_at) :=
      ⟨fun x y => le_total _ _⟩
    haveI : IsTrans JoinedRow (fun x y => y.a.created_at ≤ x.a.created_at) :=
      ⟨fun x y z hxy hyz => le_trans hyz hxy⟩
    exact List.sorted_insertionSort _ _
  · intro params' r r' hs ha h h'
    rw [(htotal params r h).1, (htotal params' r' h').1, matchesFilter_congr params params' hs ha]
  · intro href hoff
    rw [ListArticles_eq, if_neg (by omega),
      scanRows_of_authors _ (fun r hr =>
        joined_author_of_referential db href r (pageSlice_subset_joined db params r hr))]
    exact ⟨_, rfl⟩

/-- Page 2 of size 1 of the two articles matching `hel` among three. -/
theorem ListArticles_total_and_page_witness :
    ∃ r, ListArticles
        ⟨[⟨"a1", "Ada"⟩, ⟨"a2", "Grace"⟩],
         [⟨"x1", "a1", "Hello", "World", 5⟩, ⟨"x2", "a2", "Help", "me", 7⟩,
          ⟨"x3", "a1", "Other", "text", 9⟩], true⟩
        ⟨"hel", "", 2, 1⟩ = .ok r
      ∧ r.Total = 2
      ∧ r.Articles = [⟨"x1", "a1", "Hello", 5, some ⟨"a1", "Ada"⟩⟩]
      ∧ (r.Articles.length : Int) = min 1 (max 0 (r.Total - 1)) :=
  have h := ListArticles_total_and_page
    ⟨[⟨"a1", "Ada"⟩, ⟨"a2", "Grace"⟩],
     [⟨"x1", "a1", "Hello", "World", 5⟩, ⟨"x2", "a2", "Help", "me", 7⟩,
      ⟨"x3", "a1", "Other", "text", 9⟩], true⟩
    ⟨"hel", "", 2, 1⟩
  ⟨_, rfl, (h.1 _ rfl).1, (h.1 _ rfl).2.1, (h.1 _ rfl).2.2.2⟩

/-! ## The search predicate -/

theorem anySuffix_isEmpty (t : List Char) : anySuffix (fun u => u.isEmpty) t = true := by
  induction t with
  | nil => rfl
  | cons c t ih => simp [anySuffix, ih]

theorem likeMatch_percent (p t : List Char) :
    likeMatch ('%' :: p) t = anySuffix (likeMatch p) t := by
  rw [likeMatch.eq_def]
  simp

theorem likeMatch_literal (c : Char) (p t : List Char) (hc : isLikeMeta c = false) :
    likeMatch (c :: p) t
      = match t with
        | [] => false
        | x :: t' => x == c && likeMatch p t' := by
  simp only [isLikeMeta, Bool.or_eq_false_iff, decide_eq_false_iff_not] at hc
  obtain ⟨⟨h1, h2⟩, h3⟩ := hc
  rw [likeMatch.eq_def]
  simp only [h1, h2, h3, if_false]

theorem likeMatch_literal_then_percent (p : List Char) (hp : ∀ c ∈ p, isLikeMeta c = false) :
    ∀ t, likeMatch (p ++ ['%']) t = p.isPrefixOf t := by
  induction p with
  | nil =>
    intro t
    rw [List.nil_append, likeMatch_percent]
    have : likeMatch [] = fun u => u.isEmpty := by funext u; simp [likeMatch]
    rw [this, anySuffix_isEmpty]
    simp
  | cons c p ih =>
    intro t
    have hc := hp c (List.mem_cons_self _ _)
    have ih' := ih (fun x hx => hp x (List.mem_cons_of_mem _ hx))
    rw [List.cons_append, likeMatch_literal c _ t hc]
    cases t with
    | nil => simp
    | cons x t' =>
      simp only [ih' t', List.isPrefixOf]
      by_cases hxc : x = c
      · simp [hxc]
      · have hcx : ¬ c = x := fun h => hxc h.symm
        have h1 : (x == c) = false := by simpa using hxc
        have h2 : (c == x) = false := by simpa using hcx
        rw [h1, h2]

theorem likeMatch_percent_literal_percent (p : List Char)
    (hp : ∀ c ∈ p, isLikeMeta c = false) (t : List Char) :
    likeMatch ('%' :: (p ++ ['%'])) t = anySuffix (fun u => p.isPrefixOf u) t := by
  rw [likeMatch_percent]
  have : likeMatch (p ++ ['%']) = fun u => p.isPrefixOf u := by
    funext u
    exact likeMatch_literal_then_percent p hp u
  rw [this]

theorem isLikeMeta_toLower (c : Char) (hc : isLikeMeta c = false) :
    isLikeMeta c.toLower = false := by
  unfold Char.toLower
  simp only
  by_cases h : c.toNat ≥ 65 ∧ c.toNat ≤ 90
  · rw [if_pos h]
    obtain ⟨h1, h2⟩ := h
    generalize c.toNat = n at h1 h2
    interval_cases n <;> decide
  · rw [if_neg h]
    exact hc

/-- Off the characters `%`, `_` and backslash the pattern built by
`ListArticles` is the substring match of the spec. -/
theorem ilike_eq_containsIgnoreCase (text s : String)
    (hs : ∀ c ∈ s.data, isLikeMeta c = false) :
    ilike text ("%" ++ s ++ "%") = containsIgnoreCase text s := by
  unfold ilike containsIgnoreCase
  have hd : ("%" ++ s ++ "%").data = '%' :: (s.data ++ ['%']) := by
    rw [String.data_append, String.data_append]
    rfl
  rw [hd, List.map_cons, List.map_append]
  have h1 : Char.toLower '%' = '%' := by decide
  have h2 : List.map Char.toLower ['%'] = ['%'] := by decide
  rw [h1, h2]
  apply likeMatch_percent_literal_percent
  intro c hc
  rw [List.mem_map] at hc
  obtain ⟨d, hd, rfl⟩ := hc
  exact isLikeMeta_toLower d (hs d hd)

theorem plan_compileWhere (params : ListArticlesParams) :
    ∃ f, compileWhere (ListArticles.plan params).args (ListArticles.plan params).whereConditions
        = .ok f ∧ ∀ r, f r = matchesFilter params r := by
  by_cases h1 : params.Search = "" <;> by_cases h2 : params.AuthorName = ""
  · exact ⟨fun _ => true,
      by simp [ListArticles.plan, h1, h2, compileWhere, pure, Except.pure],
      by intro r; simp [matchesFilter, h1, h2]⟩
  · exact ⟨fun r => authorILike r.au ("%" ++ params.AuthorName ++ "%") && true,
      by simp [ListArticles.plan, h1, h2, compileWhere, pure, Except.pure, bind, Except.bind,
        Cond.compile, lookupStr],
      by intro r; simp [matchesFilter, h1, h2]⟩
  · exact ⟨fun r => (ilike r.a.title ("%" ++ params.Search ++ "%")
        || ilike r.a.body ("%" ++ params.Search ++ "%")) && true,
      by simp [ListArticles.plan, h1, h2, compileWhere, pure, Except.pure, bind, Except.bind,
        Cond.compile, lookupStr],
      by intro r; simp [matchesFilter, h1, h2]⟩
  · exact ⟨fun r => (ilike r.a.title ("%" ++ params.Search ++ "%")
        || ilike r.a.body ("%" ++ params.Search ++ "%"))
        && (authorILike r.au ("%" ++ params.AuthorName ++ "%") && true),
      by simp [ListArticles.plan, h1, h2, compileWhere, pure, Except.pure, bind, Except.bind,
        Cond.compile, lookupStr],
      by intro r; simp [matchesFilter, h1, h2]⟩

/-- C10, as stated, fails.  The search string `_` selects the article titled
`Hello` with body `World`, and so does `%`, although neither character occurs
in the title or the body; the search string made of one backslash does not
select the article titled `C:\tmp`, in which it occurs; and the author name
`A_a` selects the article of the author `Ada`. -/
theorem search_wildcards_counterexample :
    (ListArticles ⟨[⟨"a1", "Ada"⟩], [⟨"x1", "a1", "Hello", "World", 5⟩], true⟩
        ⟨"_", "", 1, 10⟩
      = .ok ⟨[⟨"x1", "a1", "Hello", 5, some ⟨"a1", "Ada"⟩⟩], 1, 1, 10⟩
      ∧ containsIgnoreCase "Hello" "_" = false ∧ containsIgnoreCase "World" "_" = false)
    ∧ (ListArticles ⟨[⟨"a1", "Ada"⟩], [⟨"x1", "a1", "Hello", "World", 5⟩], true⟩
        ⟨"%", "", 1, 10⟩
      = .ok ⟨[⟨"x1", "a1", "Hello", 5, some ⟨"a1", "Ada"⟩⟩], 1, 1, 10⟩
      ∧ containsIgnoreCase "Hello" "%" = false ∧ containsIgnoreCase "World" "%" = false)
    ∧ (ListArticles ⟨[⟨"a1", "Ada"⟩], [⟨"x2", "a1", "C:\\tmp", "path", 6⟩], true⟩
        ⟨"\\", "", 1, 10⟩
      = .ok ⟨[], 0, 1, 10⟩
      ∧ containsIgnoreCase "C:\\tmp" "\\" = true)
    ∧ (ListArticles ⟨[⟨"a1", "Ada"⟩], [⟨"x1", "a1", "Hello", "World", 5⟩], true⟩
        ⟨"", "A_a", 1, 10⟩
      = .ok ⟨[⟨"x1", "a1", "Hello", 5, some ⟨"a1", "Ada"⟩⟩], 1, 1, 10⟩
      ∧ containsIgnoreCase "Ada" "A_a" = false) := by
  decide

/-- C10, amended: when neither filter string contains `%`, `_` or a backslash,
the predicate `ListArticles` hands to the store selects a joined row exactly
when the search string, if not empty, occurs, letter case ignored, as a
contiguous substring of the row's title or of its body, and the author name,
if not empty, occurs in the same sense in the joined author's name. -/
theorem search_predicate_substring (params : ListArticlesParams)
    (hs : ∀ c ∈ params.Search.data, isLikeMeta c = false)
    (ha : ∀ c ∈ params.AuthorName.data, isLikeMeta c = false) :
    ∃ f, compileWhere (ListArticles.plan params).args (ListArticles.plan params).whereConditions
        = .ok f
      ∧ ∀ r, f r
          = ((params.Search = ""
                || (containsIgnoreCase r.a.title params.Search
                    || containsIgnoreCase r.a.body params.Search))
              && (params.AuthorName = ""
                || (match r.au with
                    | none => false
                    | some au => containsIgnoreCase au.Name params.AuthorName))) := by
  obtain ⟨f, hf, hfr⟩ := plan_compileWhere params
  refine ⟨f, hf, fun r => ?_⟩
  rw [hfr r]
  unfold matchesFilter authorILike
  rw [ilike_eq_containsIgnoreCase _ _ hs, ilike_eq_containsIgnoreCase _ _ hs]
  cases r.au with
  | none => rfl
  | some au => simp only [ilike_eq_containsIgnoreCase _ _ ha]

/-- The filters `ell` and `DA` on two concrete rows. -/
theorem search_predicate_substring_witness :
    ∃ f, compileWhere (ListArticles.plan ⟨"ell", "DA", 1, 10⟩).args
          (ListArticles.plan ⟨"ell", "DA", 1, 10⟩).whereConditions = .ok f
      ∧ f ⟨⟨"x1", "a1", "Hello", "World", 5⟩, some ⟨"a1", "Ada"⟩⟩ = true
      ∧ f ⟨⟨"x2", "a1", "Other", "text", 6⟩, some ⟨"a1", "Ada"⟩⟩ = false :=
  have h := search_predicate_substring ⟨"ell", "DA", 1, 10⟩ (by decide) (by decide)
  ⟨h.choose, h.choose_spec.1,
    (h.choose_spec.2 _).trans (by decide), (h.choose_spec.2 _).trans (by decide)⟩

/-! ## The text of the two statements -/

/-- The conditions, the arguments and the next placeholder index of a plan. -/
theorem plan_filters (params : ListArticlesParams) :
    (ListArticles.plan params).whereConditions
        = (if params.Search = "" then [] else [Cond.search 1])
          ++ (if params.AuthorName = "" then []
              else [Cond.author (if params.Search = "" then 1 else 2)])
    ∧ (ListArticles.plan params).args
        = (if params.Search = "" then [] else [Arg.str ("%" ++ params.Search ++ "%")])
          ++ (if params.AuthorName = "" then []
              else [Arg.str ("%" ++ params.AuthorName ++ "%")])
    ∧ (ListArticles.plan params).argIndex
        = (ListArticles.plan params).whereConditions.length + 1 := by
  by_cases h1 : params.Search = "" <;> by_cases h2 : params.AuthorName = "" <;>
    simp [ListArticles.plan, h1, h2]

theorem plan_texts (params : ListArticlesParams) :
    (ListArticles.plan params).whereClause = renderWhere (ListArticles.plan params).whereConditions
    ∧ (ListArticles.plan params).countQuery
        = renderCountQuery (renderWhere (ListArticles.plan params).whereConditions)
    ∧ (ListArticles.plan params).articlesQuery
        = renderArticlesQuery (renderWhere (ListArticles.plan params).whereConditions)
            ((ListArticles.plan params).whereConditions.length + 1)
            ((ListArticles.plan params).whereConditions.length + 2) := by
  by_cases h1 : params.Search = "" <;> by_cases h2 : params.AuthorName = "" <;>
    simp [ListArticles.plan, h1, h2]

/-- C11: the SQL texts of the count query and of the page query are the same
for any two parameter sets in which `search` is empty or not alike and
`author_name` is empty or not alike, whatever the values, the page and the
limit; the values enter the bound arguments only, as `"%" + value + "%"`,
followed for the page query by the limit and the offset. -/
theorem query_text_depends_on_emptiness_only (p q : ListArticlesParams)
    (hs : p.Search = "" ↔ q.Search = "") (ha : p.AuthorName = "" ↔ q.AuthorName = "") :
    (ListArticles.plan p).countQuery = (ListArticles.plan q).countQuery
    ∧ (ListArticles.plan p).articlesQuery = (ListArticles.plan q).articlesQuery
    ∧ (ListArticles.plan p).args
        = (if p.Search = "" then [] else [Arg.str ("%" ++ p.Search ++ "%")])
          ++ (if p.AuthorName = "" then [] else [Arg.str ("%" ++ p.AuthorName ++ "%")])
    ∧ (ListArticles.plan p).pageArgs
        = (ListArticles.plan p).args
          ++ [Arg.int (ListArticles.plan p).Limit, Arg.int (ListArticles.plan p).offset] := by
  have hc : (ListArticles.plan p).whereConditions = (ListArticles.plan q).whereConditions := by
    rw [(plan_filters p).1, (plan_filters q).1]
    by_cases h1 : p.Search = "" <;> by_cases h2 : p.AuthorName = "" <;>
      simp [h1, h2, hs.1, ha.1, ← hs, ← ha]
  refine ⟨?_, ?_, (plan_filters p).2.1, plan_pageArgs p⟩
  · rw [(plan_texts p).2.1, (plan_texts q).2.1, hc]
  · rw [(plan_texts p).2.2, (plan_texts q).2.2, hc]

/-- A search value that looks like SQL leaves the text that of any other search. -/
theorem query_text_depends_on_emptiness_only_witness :
    (ListArticles.plan ⟨"$9) OR (1=1", "", 1, 10⟩).countQuery
      = (ListArticles.plan ⟨"hello", "", 7, 3⟩).countQuery
    ∧ (ListArticles.plan ⟨"$9) OR (1=1", "", 1, 10⟩).articlesQuery
      = (ListArticles.plan ⟨"hello", "", 7, 3⟩).articlesQuery
    ∧ (ListArticles.plan ⟨"$9) OR (1=1", "", 1, 10⟩).args = [Arg.str "%$9) OR (1=1%"]
    ∧ (ListArticles.plan ⟨"$9) OR (1=1", "", 1, 10⟩).countQuery
      = "\n\t\tSELECT COUNT(*)\n\t\tFROM articles a\n\t\tLEFT JOIN authors au ON a.author_id = au.id\n\t\tWHERE (a.title ILIKE $1 OR a.body ILIKE $1)\n\t" :=
  have h := query_text_depends_on_emptiness_only ⟨"$9) OR (1=1", "", 1, 10⟩ ⟨"hello", "", 7, 3⟩
    (by decide) (by decide)
  ⟨h.1, h.2.1, h.2.2.1, by decide⟩

/-! ## Placeholders and bound arguments -/

set_option maxRecDepth 100000 in
theorem placeholders_count_texts :
    placeholdersOf (renderCountQuery (renderWhere [])).data = []
    ∧ placeholdersOf (renderCountQuery (renderWhere [Cond.search 1])).data = [1, 1]
    ∧ placeholdersOf (renderCountQuery (renderWhere [Cond.author 1])).data = [1]
    ∧ placeholdersOf (renderCountQuery (renderWhere [Cond.search 1, Cond.author 2])).data
        = [1, 1, 2] := by
  decide

set_option maxRecDepth 100000 in
theorem placeholders_page_texts :
    placeholdersOf (renderArticlesQuery (renderWhere []) 1 2).data = [1, 2]
    ∧ placeholdersOf (renderArticlesQuery (renderWhere [Cond.search 1]) 2 3).data = [1, 1, 2, 3]
    ∧ placeholdersOf (renderArticlesQuery (renderWhere [Cond.author 1]) 2 3).data = [1, 2, 3]
    ∧ placeholdersOf (renderArticlesQuery (renderWhere [Cond.search 1, Cond.author 2]) 3 4).data
        = [1, 1, 2, 3, 4] := by
  decide

/-- C20: with `k` non-empty filters (`k` is 0, 1 or 2) the `WHERE` clause is
empty for `k = 0` and otherwise the `k` conditions joined by `" AND "`; the
count query is run with `k` arguments and its text refers to the placeholders
`$1..$k` only; the page query is run with `k + 2` arguments and its text
refers to exactly `$1..$(k+2)`, with `LIMIT` at `$(k+1)` and `OFFSET` at
`$(k+2)`, where the limit and the offset are bound; the conditions carry the
placeholders `1..k` in order and the `i`-th argument is the pattern
`"%" + value + "%"` of the `i`-th filter. -/
theorem ListArticles_queries_well_formed (params : ListArticlesParams) :
    (ListArticles.plan params).whereConditions.length
        = (if params.Search = "" then 0 else 1) + (if params.AuthorName = "" then 0 else 1)
    ∧ (ListArticles.plan params).whereClause
        = (if (ListArticles.plan params).whereConditions.length = 0 then ""
           else "WHERE " ++ " AND ".intercalate
                  ((ListArticles.plan params).whereConditions.map Cond.render))
    ∧ (ListArticles.plan params).args.length = (ListArticles.plan params).whereConditions.length
    ∧ (∀ n, n ∈ placeholdersOf (ListArticles.plan params).countQuery.data
          ↔ 1 ≤ n ∧ n ≤ (ListArticles.plan params).whereConditions.length)
    ∧ (ListArticles.plan params).pageArgs.length
        = (ListArticles.plan params).whereConditions.length + 2
    ∧ (∀ n, n ∈ placeholdersOf (ListArticles.plan params).articlesQuery.data
          ↔ 1 ≤ n ∧ n ≤ (ListArticles.plan params).whereConditions.length + 2)
    ∧ (ListArticles.plan params).articlesQuery
        = renderArticlesQuery (ListArticles.plan params).whereClause
            ((ListArticles.plan params).whereConditions.length + 1)
            ((ListArticles.plan params).whereConditions.length + 2)
    ∧ lookupInt (ListArticles.plan params).pageArgs
          ((ListArticles.plan params).whereConditions.length + 1)
        = .ok (ListArticles.plan params).Limit
    ∧ lookupInt (ListArticles.plan params).pageArgs
          ((ListArticles.plan params).whereConditions.length + 2)
        = .ok (ListArticles.plan params).offset
    ∧ (ListArticles.plan params).whereConditions.map Cond.index
        = List.range' 1 (ListArticles.plan params).whereConditions.length
    ∧ (ListArticles.plan params).args
        = (ListArticles.plan params).whereConditions.map
            (fun c => Arg.str ("%" ++ c.value params ++ "%"))
    ∧ (∀ c ∈ (ListArticles.plan params).whereConditions,
          c.value params ≠ ""
          ∧ lookupStr (ListArticles.plan params).args c.index
              = .ok ("%" ++ c.value params ++ "%")
          ∧ lookupStr (ListArticles.plan params).pageArgs c.index
              = .ok ("%" ++ c.value params ++ "%")) := by
  obtain ⟨hconds, hargs, hidx⟩ := plan_filters params
  obtain ⟨hwhere, hcount, hpage⟩ := plan_texts params
  obtain ⟨pc0, pc1, pc2, pc3⟩ := placeholders_count_texts
  obtain ⟨pp0, pp1, pp2, pp3⟩ := placeholders_page_texts
  have hlen : (ListArticles.plan params).args.length
      = (ListArticles.plan params).whereConditions.length := by
    have := plan_args_length params
    omega
  have hl1 := lookupInt_append_fst (ListArticles.plan params).args
    (ListArticles.plan params).Limit (ListArticles.plan params).offset
  have hl2 := lookupInt_append_snd (ListArticles.plan params).args
    (ListArticles.plan params).Limit (ListArticles.plan params).offset
  rw [← plan_pageArgs, hlen] at hl1 hl2
  have hplen : (ListArticles.plan params).pageArgs.length
      = (ListArticles.plan params).whereConditions.length + 2 := by
    rw [plan_pageArgs, List.length_append, hlen]
    rfl
  have hclause : (ListArticles.plan params).whereClause
      = (if (ListArticles.plan params).whereConditions.length = 0 then ""
         else "WHERE " ++ " AND ".intercalate
                ((ListArticles.plan params).whereConditions.map Cond.render)) := by
    rw [hwhere]
    unfold renderWhere
    by_cases h0 : (ListArticles.plan params).whereConditions.length = 0
    · rw [if_pos h0, if_neg (by omega)]
    · rw [if_neg h0, if_pos (by omega)]
  have hquery : (ListArticles.plan params).articlesQuery
      = renderArticlesQuery (ListArticles.plan params).whereClause
          ((ListArticles.plan params).whereConditions.length + 1)
          ((ListArticles.plan params).whereConditions.length + 2) := by
    rw [hpage, hwhere]
  refine ⟨?_, hclause, hlen, ?_, hplen, ?_, hquery, hl1, hl2, ?_, ?_, ?_⟩
  · rw [hconds]
    by_cases h1 : params.Search = "" <;> by_cases h2 : params.AuthorName = "" <;> simp [h1, h2]
  · intro n
    rw [hcount, hconds]
    by_cases h1 : params.Search = "" <;> by_cases h2 : params.AuthorName = "" <;>
      simp only [h1, h2, if_true, if_false, List.nil_append, List.append_nil,
        List.singleton_append, pc0, pc1, pc2, pc3] <;> simp <;> omega
  · intro n
    rw [hpage, hconds]
    by_cases h1 : params.Search = "" <;> by_cases h2 : params.AuthorName = "" <;>
      simp only [h1, h2, if_true, if_false, List.nil_append, List.append_nil,
        List.singleton_append, List.length_nil, List.length_cons, Nat.zero_add, Nat.reduceAdd,
        pp0, pp1, pp2, pp3] <;> simp <;> omega
  · rw [hconds]
    by_cases h1 : params.Search = "" <;> by_cases h2 : params.AuthorName = "" <;>
      simp [h1, h2, Cond.index, List.range']
  · rw [hargs, hconds]
    by_cases h1 : params.Search = "" <;> by_cases h2 : params.AuthorName = "" <;>
      simp [h1, h2, Cond.value]
  · intro c hc
    rw [plan_pageArgs, hargs]
    rw [hconds] at hc
    by_cases h1 : params.Search = "" <;> by_cases h2 : params.AuthorName = "" <;>
      simp only [h1, h2, if_true, if_false, List.nil_append, List.append_nil,
        List.singleton_append, List.mem_cons, List.mem_singleton, List.not_mem_nil,
        or_false] at hc ⊢
    · subst hc; exact ⟨h2, rfl, rfl⟩
    · subst hc; exact ⟨h1, rfl, rfl⟩
    · rcases hc with hc | hc
      · subst hc; exact ⟨h1, rfl, rfl⟩
      · subst hc; exact ⟨h2, rfl, rfl⟩


/-- Both filters set: two conditions, four arguments, the author pattern at `$2`. -/
theorem ListArticles_queries_well_formed_witness :
    (ListArticles.plan ⟨"go", "ada", 2, 5⟩).whereClause
      = "WHERE (a.title ILIKE $1 OR a.body ILIKE $1) AND au.name ILIKE $2"
    ∧ (3 ∈ placeholdersOf (ListArticles.plan ⟨"go", "ada", 2, 5⟩).articlesQuery.data)
    ∧ lookupStr (ListArticles.plan ⟨"go", "ada", 2, 5⟩).pageArgs 2 = .ok "%ada%" :=
  have h := ListArticles_queries_well_formed ⟨"go", "ada", 2, 5⟩
  ⟨h.2.1, (h.2.2.2.2.2.1 3).2 ⟨by decide, by decide⟩,
    (h.2.2.2.2.2.2.2.2.2.2.2 (Cond.author 2) (by decide)).2.2⟩

/-! ## Cache effects of `CreateArticle` and `ListArticles` -/

/-- A failed `CreateArticle` leaves the cache as it was. -/
theorem CreateArticle_error_cache {σ : Type} (cache : CacheServiceInterface σ)
    (unixNano now : Int) (db : Store) (c : σ) (req : CreateArticleRequest) (e : Error)
    (h : (CreateArticle cache unixNano now db c req).result = .error e) :
    (CreateArticle cache unixNano now db c req).cache = c := by
  rcases hins : db.insertArticle
      { id := "article-" ++ toString unixNano, author_id := req.AuthorID, title := req.Title,
        body := req.Body, created_at := now } with ⟨r, db'⟩
  cases r with
  | error e' =>
    rw [CreateArticle_insert_error cache unixNano now db c req e' db' hins]
  | ok row =>
    cases hsel : db'.selectAuthor req.AuthorID with
    | error e' =>
      rw [CreateArticle_fetch_error cache unixNano now db c req row e' db' hins hsel]
    | ok author =>
      rw [(CreateArticle_success cache unixNano now db c req row author db' hins hsel).1] at h
      simp at h

/-- The result of `CreateArticle` is the same over every cache. -/
theorem CreateArticle_result_cache_free {σ τ : Type} (cache₁ : CacheServiceInterface σ)
    (cache₂ : CacheServiceInterface τ) (unixNano now : Int) (db : Store) (c₁ : σ) (c₂ : τ)
    (req : CreateArticleRequest) :
    (CreateArticle cache₁ unixNano now db c₁ req).result
      = (CreateArticle cache₂ unixNano now db c₂ req).result := by
  rcases hins : db.insertArticle
      { id := "article-" ++ toString unixNano, author_id := req.AuthorID, title := req.Title,
        body := req.Body, created_at := now } with ⟨r, db'⟩
  cases r with
  | error e' =>
    rw [CreateArticle_insert_error cache₁ unixNano now db c₁ req e' db' hins,
      CreateArticle_insert_error cache₂ unixNano now db c₂ req e' db' hins]
  | ok row =>
    cases hsel : db'.selectAuthor req.AuthorID with
    | error e' =>
      rw [CreateArticle_fetch_error cache₁ unixNano now db c₁ req row e' db' hins hsel,
        CreateArticle_fetch_error cache₂ unixNano now db c₂ req row e' db' hins hsel]
    | ok author =>
      rw [(CreateArticle_success cache₁ unixNano now db c₁ req row author db' hins hsel).1,
        (CreateArticle_success cache₂ unixNano now db c₂ req row author db' hins hsel).1]

/-- C12: after every successful `CreateArticle` on the in-memory cache the
key `articles:list` is absent, whatever the cache held; the key
`"article:" + id`, which is not `articles:list`, holds the returned article
and every other key holds what it held; the calls the cache receives are one
`SetWithTTL` on `"article:" + id` with the article and TTL 600 followed by one
`Delete` of `articles:list`; and a failed `CreateArticle` makes no call and
leaves the cache as it was. -/
theorem CreateArticle_list_key_invalidated (unixNano now : Int) (db : Store)
    (m : MockCacheService) (calls : List CacheCall) (req : CreateArticleRequest) :
    (∀ a, (CreateArticle mockCache unixNano now db m req).result = .ok a →
      (CreateArticle mockCache unixNano now db m req).cache.data "articles:list" = none
      ∧ (CreateArticle mockCache unixNano now db m req).cache.data ("article:" ++ a.ID)
          = some (.article a)
      ∧ "article:" ++ a.ID ≠ "articles:list"
      ∧ (∀ k, k ≠ "articles:list" → k ≠ "article:" ++ a.ID →
          (CreateArticle mockCache unixNano now db m req).cache.data k = m.data k)
      ∧ (CreateArticle recordingCache unixNano now db calls req).cache
          = calls ++ [CacheCall.SetWithTTL ("article:" ++ a.ID) (.article a) 600,
                      CacheCall.Delete "articles:list"])
    ∧ (∀ e, (CreateArticle mockCache unixNano now db m req).result = .error e →
      (CreateArticle mockCache unixNano now db m req).cache = m
      ∧ (CreateArticle recordingCache unixNano now db calls req).cache = calls) := by
  constructor
  · intro a h
    have hd := CreateArticle_mock_data unixNano now db m req a h
    refine ⟨?_, ?_, articleKey_ne_listKey _, ?_, ?_⟩
    · rw [hd, if_pos rfl]
    · rw [hd, if_neg (articleKey_ne_listKey _), if_pos rfl]
    · intro k h1 h2
      rw [hd, if_neg h1, if_neg h2]
    · have hr : (CreateArticle recordingCache unixNano now db calls req).result = .ok a := by
        rw [← h]
        exact CreateArticle_result_cache_free _ _ _ _ _ _ _ _
      obtain ⟨-, -, au, -, -, hc⟩ :=
        CreateArticle_ok recordingCache unixNano now db calls req a hr
      rw [hc]
      simp [recordingCache]
  · intro e h
    refine ⟨CreateArticle_error_cache mockCache unixNano now db m req e h, ?_⟩
    have hr : (CreateArticle recordingCache unixNano now db calls req).result = .error e := by
      rw [← h]
      exact CreateArticle_result_cache_free _ _ _ _ _ _ _ _
    exact CreateArticle_error_cache recordingCache unixNano now db calls req e hr

/-- A create on a cache that holds a list under `articles:list`. -/
theorem CreateArticle_list_key_invalidated_witness :
    (CreateArticle mockCache 42 43 ⟨[⟨"a1", "Ada"⟩], [], true⟩
        (MockCacheService.Set NewMockCacheService "articles:list" (.slice [.str "x1"])).2
        ⟨"a1", "Hello", "World"⟩).cache.data "articles:list" = none
    ∧ (CreateArticle recordingCache 42 43 ⟨[⟨"a1", "Ada"⟩], [], true⟩ []
        ⟨"a1", "Hello", "World"⟩).cache
      = [CacheCall.SetWithTTL ("article:" ++ "article-42")
            (.article ⟨"article-42", "a1", "Hello", "World", 43, some ⟨"a1", "Ada"⟩⟩) 600,
         CacheCall.Delete "articles:list"] :=
  have h := (CreateArticle_list_key_invalidated 42 43 ⟨[⟨"a1", "Ada"⟩], [], true⟩
    (MockCacheService.Set NewMockCacheService "articles:list" (.slice [.str "x1"])).2 []
    ⟨"a1", "Hello", "World"⟩).1
      ⟨"article-42", "a1", "Hello", "World", 43, some ⟨"a1", "Ada"⟩⟩ rfl
  ⟨h.1, h.2.2.2.2⟩

/-- C13: `ListArticles` returns the repository, and so the state of its
cache, as it received it, over every cache implementation and cache state;
its result is that of the store alone, the same over any other cache; and a
cache that records its calls has received none. -/
theorem ListArticles_cache_untouched {σ τ : Type} (r : ArticleRepository σ)
    (cache' : CacheServiceInterface τ) (c' : τ) (calls : List CacheCall)
    (params : ListArticlesParams) :
    (r.ListArticles params).2.cacheState = r.cacheState
    ∧ (r.ListArticles params).2 = r
    ∧ (r.ListArticles params).1
        = (ArticleRepository.ListArticles ⟨r.db, cache', c'⟩ params).1
    ∧ (ArticleRepository.ListArticles ⟨r.db, recordingCache, calls⟩ params).2.cacheState = calls
    ∧ (r.ListArticles params).1 = ListArticles r.db params :=
  ⟨rfl, rfl, rfl, rfl, rfl⟩

/-! ## `GetAuthorByID` -/

theorem selectAuthor_error (s : Store) (id : String) (e : DbError)
    (h : s.selectAuthor id = .error e) : e = .ErrNoRows ∧ ∀ au ∈ s.authors, au.ID ≠ id := by
  unfold Store.selectAuthor at h
  split at h
  · simp at h
  · rename_i hf
    simp only [Except.error.injEq] at h
    refine ⟨h.symm, ?_⟩
    rw [List.find?_eq_none] at hf
    intro au hau
    simpa using hf au hau

theorem DB_selectAuthor_sound (db : DB) (id : String) (h : db.fault = none) :
    db.selectAuthor id = db.store.selectAuthor id := by
  unfold DB.selectAuthor
  rw [h]

theorem DB_selectAuthor_fault (db : DB) (id : String) (e : DbError) (h : db.fault = some e) :
    db.selectAuthor id = .error e := by
  unfold DB.selectAuthor
  rw [h]

theorem DB_GetAuthorByID_of_ok (db : DB) (id : String) (au : Author)
    (h : db.selectAuthor id = .ok au) : db.GetAuthorByID id = .ok au := by
  unfold DB.GetAuthorByID
  rw [h]

theorem DB_GetAuthorByID_of_noRows (db : DB) (id : String)
    (h : db.selectAuthor id = .error .ErrNoRows) :
    db.GetAuthorByID id = .error .AuthorNotFoundError := by
  unfold DB.GetAuthorByID
  rw [h]
  rfl

theorem DB_GetAuthorByID_of_error (db : DB) (id : String) (e : DbError)
    (h : db.selectAuthor id = .error e) (he : e ≠ DbError.ErrNoRows) :
    db.GetAuthorByID id = .error (.wrapped "failed to get author" e) := by
  unfold DB.GetAuthorByID
  rw [h]
  simp only [if_neg he]

/-- C14: `GetAuthorByID` returns an author row with the requested id when one
exists and the statement reaches the store, and only such a row; it fails with
the typed `AuthorNotFoundError` if and only if the lookup yields no row
(`sql.ErrNoRows`), which on a handle without failure is the case exactly when
no author row has the id; and on every other failure of the lookup, such as
the failure of the handle, it fails with the wrapped `failed to get author`
error, which is not the typed one. -/
theorem GetAuthorByID_results (db : DB) (id : String) :
    (db.fault = none → (∃ au ∈ db.store.authors, au.ID = id) →
        ∃ au ∈ db.store.authors, au.ID = id ∧ db.GetAuthorByID id = .ok au)
    ∧ (∀ au, db.GetAuthorByID id = .ok au →
        db.fault = none ∧ au ∈ db.store.authors ∧ au.ID = id)
    ∧ (db.GetAuthorByID id = .error .AuthorNotFoundError
        ↔ db.selectAuthor id = .error .ErrNoRows)
    ∧ (db.fault = none →
        (db.selectAuthor id = .error .ErrNoRows ↔ ∀ au ∈ db.store.authors, au.ID ≠ id))
    ∧ (∀ e, db.selectAuthor id = .error e → e ≠ DbError.ErrNoRows →
        db.GetAuthorByID id = .error (.wrapped "failed to get author" e)
        ∧ db.GetAuthorByID id ≠ .error .AuthorNotFoundError)
    ∧ (∀ e, db.fault = some e → db.selectAuthor id = .error e)
    ∧ (db.fault = none → db.GetAuthorByID id = GetAuthorByID db.store id) := by
  refine ⟨?_, ?_, ?_, ?_, ?_, fun e he => DB_selectAuthor_fault db id e he, ?_⟩
  · rintro hf ⟨au, hau, hid⟩
    have hs := DB_selectAuthor_sound db id hf
    cases hsel : db.store.selectAuthor id with
    | error e =>
      exact absurd hid ((selectAuthor_error db.store id e hsel).2 au hau)
    | ok au' =>
      obtain ⟨hm, hi⟩ := selectAuthor_ok db.store id au' hsel
      exact ⟨au', hm, hi, DB_GetAuthorByID_of_ok db id au' (by rw [hs, hsel])⟩
  · intro au h
    cases hf : db.fault with
    | some e =>
      have hs := DB_selectAuthor_fault db id e hf
      by_cases he : e = DbError.ErrNoRows
      · rw [he] at hs
        rw [DB_GetAuthorByID_of_noRows db id hs] at h
        simp at h
      · rw [DB_GetAuthorByID_of_error db id e hs he] at h
        simp at h
    | none =>
      have hs := DB_selectAuthor_sound db id hf
      cases hsel : db.store.selectAuthor id with
      | error e =>
        obtain ⟨he, -⟩ := selectAuthor_error db.store id e hsel
        rw [hsel, he] at hs
        rw [DB_GetAuthorByID_of_noRows db id hs] at h
        simp at h
      | ok au' =>
        rw [hsel] at hs
        rw [DB_GetAuthorByID_of_ok db id au' hs] at h
        simp only [Except.ok.injEq] at h
        subst h
        exact ⟨rfl, selectAuthor_ok db.store id au' hsel⟩
  · constructor
    · intro h
      cases hsel : db.selectAuthor id with
      | error e =>
        by_cases he : e = DbError.ErrNoRows
        · rw [he]
        · rw [DB_GetAuthorByID_of_error db id e hsel he] at h
          simp at h
      | ok au =>
        rw [DB_GetAuthorByID_of_ok db id au hsel] at h
        simp at h
    · exact DB_GetAuthorByID_of_noRows db id
  · intro hf
    rw [DB_selectAuthor_sound db id hf]
    constructor
    · intro h
      exact (selectAuthor_error db.store id _ h).2
    · intro h
      cases hsel : db.store.selectAuthor id with
      | error e =>
        rw [(selectAuthor_error db.store id e hsel).1]
      | ok au' =>
        obtain ⟨hm, hi⟩ := selectAuthor_ok db.store id au' hsel
        exact absurd hi (h au' hm)
  · intro e hsel he
    rw [DB_GetAuthorByID_of_error db id e hsel he]
    exact ⟨rfl, by simp⟩
  · intro hf
    obtain ⟨store, fault⟩ := db
    simp only at hf
    subst hf
    rfl

/-- A stored author and a missing author on a handle without failure, and the
stored author asked for through a handle whose connection is refused. -/
theorem GetAuthorByID_results_witness :
    (∃ au ∈ [(⟨"a1", "Ada"⟩ : Author), ⟨"a2", "Grace"⟩], au.ID = "a2"
        ∧ DB.GetAuthorByID ⟨⟨[⟨"a1", "Ada"⟩, ⟨"a2", "Grace"⟩], [], true⟩, none⟩ "a2" = .ok au)
    ∧ DB.GetAuthorByID ⟨⟨[⟨"a1", "Ada"⟩, ⟨"a2", "Grace"⟩], [], true⟩, none⟩ "zz"
        = .error .AuthorNotFoundError
    ∧ DB.GetAuthorByID
        ⟨⟨[⟨"a1", "Ada"⟩, ⟨"a2", "Grace"⟩], [], true⟩, some (.connection "connection refused")⟩
        "a2"
        = .error (.wrapped "failed to get author" (.connection "connection refused")) :=
  ⟨(GetAuthorByID_results ⟨⟨[⟨"a1", "Ada"⟩, ⟨"a2", "Grace"⟩], [], true⟩, none⟩ "a2").1 rfl
      ⟨⟨"a2", "Grace"⟩, by decide, rfl⟩,
   (GetAuthorByID_results ⟨⟨[⟨"a1", "Ada"⟩, ⟨"a2", "Grace"⟩], [], true⟩, none⟩ "zz").2.2.1.2
      (by decide),
   ((GetAuthorByID_results
      ⟨⟨[⟨"a1", "Ada"⟩, ⟨"a2", "Grace"⟩], [], true⟩, some (.connection "connection refused")⟩
      "a2").2.2.2.2.1 (.connection "connection refused") (by decide) (by decide)).1⟩

/-! ## The in-memory cache -/

/-- C15, as stated, fails: with an `Article` stored under a key, `Get` into a
`*models.Article` destination, whose shape is that of the stored value, does
not return it but fails with `type assertion failed`; likewise for a stored
`string` and a `*string` destination. -/
theorem MockCacheService_Get_counterexample :
    Dest.fits .articlePtr (.article ⟨"x1", "a1", "Hello", "World", 5, none⟩) = true
    ∧ ((MockCacheService.Set NewMockCacheService "article:x1"
          (.article ⟨"x1", "a1", "Hello", "World", 5, none⟩)).2.Get "article:x1" .articlePtr).1
        = .error "type assertion failed"
    ∧ Dest.fits .strPtr (.str "v") = true
    ∧ ((MockCacheService.Set NewMockCacheService "k" (.str "v")).2.Get "k" .strPtr).1
        = .error "type assertion failed" :=
  ⟨rfl, rfl, rfl, rfl⟩

/-- C15, amended: the in-memory `Get` fails with `key not found` if and only
if the key is absent; for a key that is present it returns the stored value
when the value is a `[]interface{}` and the destination a `*[]interface{}`,
and in every other case fails with `type assertion failed`; it never changes
the cache. -/
theorem MockCacheService_Get_results (m : MockCacheService) (key : String) (dest : Dest) :
    ((m.Get key dest).1 = .error "key not found" ↔ m.data key = none)
    ∧ (∀ xs, m.data key = some (.slice xs) → (m.Get key .slicePtr).1 = .ok (.slice xs))
    ∧ (∀ v, m.data key = some v → (dest ≠ .slicePtr ∨ ∀ xs, v ≠ .slice xs) →
        (m.Get key dest).1 = .error "type assertion failed")
    ∧ (m.Get key dest).2 = m := by
  refine ⟨?_, ?_, ?_, ?_⟩
  · unfold MockCacheService.Get
    cases hk : m.data key with
    | none => simp
    | some v =>
      cases dest <;> cases v <;> simp
  · intro xs h
    unfold MockCacheService.Get
    rw [h]
  · intro v h hne
    unfold MockCacheService.Get
    rw [h]
    cases dest <;> cases v <;> simp at hne ⊢
  · unfold MockCacheService.Get
    cases hk : m.data key with
    | none => rfl
    | some v => cases dest <;> cases v <;> rfl

/-- A stored list read back, and a key that was never set. -/
theorem MockCacheService_Get_results_witness :
    ((MockCacheService.Set NewMockCacheService "k" (.slice [.str "v"])).2.Get "k" .slicePtr).1
      = .ok (.slice [.str "v"])
    ∧ ((MockCacheService.Set NewMockCacheService "k" (.slice [.str "v"])).2.Get "q" .slicePtr).1
      = .error "key not found" :=
  ⟨(MockCacheService_Get_results (MockCacheService.Set NewMockCacheService "k"
      (.slice [.str "v"])).2 "k" .slicePtr).2.1 [.str "v"] rfl,
   (MockCacheService_Get_results (MockCacheService.Set NewMockCacheService "k"
      (.slice [.str "v"])).2 "q" .slicePtr).1.2 rfl⟩

/-- C16: the in-memory `Delete` returns no error; afterwards the key is
absent and every other key maps to what it mapped to; when the key was absent
the cache is unchanged, so that a second `Delete` changes nothing. -/
theorem MockCacheService_Delete_frame (m : MockCacheService) (key : String) :
    (m.Delete key).1 = none
    ∧ (m.Delete key).2.data key = none
    ∧ (∀ k, k ≠ key → (m.Delete key).2.data k = m.data k)
    ∧ (m.data key = none → (m.Delete key).2 = m)
    ∧ ((m.Delete key).2.Delete key).2 = (m.Delete key).2 := by
  have habs : ∀ m' : MockCacheService, m'.data key = none → (m'.Delete key).2 = m' := by
    intro m' h
    cases m' with
    | mk data =>
      unfold MockCacheService.Delete
      simp only [MockCacheService.mk.injEq]
      funext k
      by_cases hk : k = key
      · rw [if_pos hk, hk]; exact h.symm
      · rw [if_neg hk]
  have hkey : (m.Delete key).2.data key = none := by
    unfold MockCacheService.Delete
    simp
  refine ⟨rfl, hkey, ?_, habs m, habs _ hkey⟩
  intro k hk
  unfold MockCacheService.Delete
  simp [hk]

/-- Deleting from the empty cache, and deleting another key than the one set. -/
theorem MockCacheService_Delete_frame_witness :
    (NewMockCacheService.Delete "articles:list").2 = NewMockCacheService
    ∧ ((MockCacheService.Set NewMockCacheService "k" (.str "v")).2.Delete "q").2.data "k"
        = some (.str "v") :=
  ⟨(MockCacheService_Delete_frame NewMockCacheService "articles:list").2.2.2.1 rfl,
   (MockCacheService_Delete_frame (MockCacheService.Set NewMockCacheService "k" (.str "v")).2
      "q").2.2.1 "k" (by decide)⟩

/-! ## The create handler -/

/-- C17: for a decoded payload in which `author_id`, `title` or `body` is
empty the create handler answers 400 and leaves the repository as it was,
having called none of its methods; for a payload with the three fields
non-empty whose author lookup fails it answers 400 as well, the only call
made being `GetAuthorByID`, so `CreateArticle` is not called. -/
theorem CreateArticle_handler_validation {ρ : Type} (repo : ArticleRepositoryInterface ρ)
    (r : ρ) (calls : List RepoCall) (req : CreateArticleRequest) :
    ((req.AuthorID = "" ∨ req.Title = "" ∨ req.Body = "") →
        (ArticleHandler.CreateArticle repo r (some req)).1.status = 400
        ∧ (ArticleHandler.CreateArticle repo r (some req)).2 = r
        ∧ (ArticleHandler.CreateArticle (recordCalls repo) (r, calls) (some req)).1.status = 400
        ∧ (ArticleHandler.CreateArticle (recordCalls repo) (r, calls) (some req)).2.2 = calls)
    ∧ (req.AuthorID ≠ "" → req.Title ≠ "" → req.Body ≠ "" →
        ∀ e, (repo.GetAuthorByID r req.AuthorID).1 = .error e →
          (ArticleHandler.CreateArticle repo r (some req)).1.status = 400
          ∧ (ArticleHandler.CreateArticle repo r (some req)).2
              = (repo.GetAuthorByID r req.AuthorID).2
          ∧ (ArticleHandler.CreateArticle (recordCalls repo) (r, calls) (some req)).1.status
              = 400
          ∧ (ArticleHandler.CreateArticle (recordCalls repo) (r, calls) (some req)).2.2
              = calls ++ [RepoCall.GetAuthorByID req.AuthorID]) := by
  constructor
  · intro h
    unfold ArticleHandler.CreateArticle
    simp only [if_pos h, and_self]
  · intro h1 h2 h3 e he
    have hn : ¬ (req.AuthorID = "" ∨ req.Title = "" ∨ req.Body = "") := by
      rintro (h | h | h)
      · exact h1 h
      · exact h2 h
      · exact h3 h
    have hrec : ((recordCalls repo).GetAuthorByID (r, calls) req.AuthorID)
        = (.error e, ((repo.GetAuthorByID r req.AuthorID).2,
            calls ++ [RepoCall.GetAuthorByID req.AuthorID])) := by
      simp only [recordCalls, he]
    have hplain : repo.GetAuthorByID r req.AuthorID
        = (.error e, (repo.GetAuthorByID r req.AuthorID).2) := by
      rw [← he]
    refine ⟨?_, ?_, ?_, ?_⟩
    · unfold ArticleHandler.CreateArticle
      simp only [if_neg hn]
      rw [hplain]
    · unfold ArticleHandler.CreateArticle
      simp only [if_neg hn]
      rw [hplain]
    · unfold ArticleHandler.CreateArticle
      simp only [if_neg hn]
      rw [hrec]
    · unfold ArticleHandler.CreateArticle
      simp only [if_neg hn]
      rw [hrec]

/-- The two payloads of the handler tests, on the repository of those tests. -/
theorem CreateArticle_handler_validation_witness :
    (ArticleHandler.CreateArticle (recordCalls mockArticleRepository)
        (NewMockArticleRepository 7, []) (some ⟨"author-1", "", ""⟩)).2.2 = []
    ∧ (ArticleHandler.CreateArticle (recordCalls mockArticleRepository)
        (NewMockArticleRepository 7, []) (some ⟨"non-existent-author", "Test Article",
          "Test body"⟩)).1.status = 400
    ∧ (ArticleHandler.CreateArticle (recordCalls mockArticleRepository)
        (NewMockArticleRepository 7, []) (some ⟨"non-existent-author", "Test Article",
          "Test body"⟩)).2.2 = [RepoCall.GetAuthorByID "non-existent-author"] :=
  ⟨((CreateArticle_handler_validation mockArticleRepository (NewMockArticleRepository 7) []
      ⟨"author-1", "", ""⟩).1 (Or.inr (Or.inl rfl))).2.2.2,
   ((CreateArticle_handler_validation mockArticleRepository (NewMockArticleRepository 7) []
      ⟨"non-existent-author", "Test Article", "Test body"⟩).2 (by decide) (by decide) (by decide)
      .AuthorNotFoundError rfl).2.2.1,
   ((CreateArticle_handler_validation mockArticleRepository (NewMockArticleRepository 7) []
      ⟨"non-existent-author", "Test Article", "Test body"⟩).2 (by decide) (by decide) (by decide)
      .AuthorNotFoundError rfl).2.2.2⟩

/-! ## Configuration -/

/-- The server port is read from `HTTP_SERVER_PORT`. -/
theorem LoadConfig_Server_Port (atoi parseDuration : String → Option Int) (env : Environ) :
    (LoadConfig atoi parseDuration env).Server.Port = getEnv env "HTTP_SERVER_PORT" "8080" :=
  rfl

/-- C18, at the failing input: in the environment of `TestLoadConfig`, where
`SERVER_PORT` is `9090`, `LoadConfig` returns the port `8080`, the variable it
reads being `HTTP_SERVER_PORT` (the host, read from `SERVER_HOST`, is that of
the environment); and with `SERVER_PORT` unset and `HTTP_SERVER_PORT` set to
`3000` the port is `3000`, not `8080`. -/
theorem LoadConfig_server_port_eval :
    Getenv testLoadConfigEnv "SERVER_PORT" = "9090"
    ∧ (LoadConfig (fun _ => none) (fun _ => none) testLoadConfigEnv).Server.Port = "8080"
    ∧ (LoadConfig (fun _ => none) (fun _ => none) testLoadConfigEnv).Server.Host = "test-host"
    ∧ (LoadConfig (fun _ => none) (fun _ => none)
        (fun key => if key = "HTTP_SERVER_PORT" then some "3000" else none)).Server.Port
      = "3000" := by
  decide

/-! ## Migrations -/

theorem isMigrationExecuted_iff (filename : String) (executed : List String) :
    isMigrationExecuted filename executed = true ↔ filename ∈ executed := by
  induction executed with
  | nil => simp [isMigrationExecuted]
  | cons e rest ih =>
    unfold isMigrationExecuted
    by_cases h : e = filename
    · simp [h]
    · rw [if_neg h, ih, List.mem_cons]
      constructor
      · exact Or.inr
      · rintro (h' | h')
        · exact absurd h'.symm h
        · exact h'

theorem mem_getExecutedMigrations (db : MigrationDb) (filename : String) :
    filename ∈ getExecutedMigrations db ↔ filename ∈ db.recorded := by
  unfold getExecutedMigrations
  exact (List.perm_insertionSort _ _).mem_iff

/-- The loop of `RunMigrations` when the pending files are distinct, run
without error and are not yet recorded. -/
theorem runPending_ok (env : MigrationEnv) (executed : List String) :
    ∀ (files : List String) (db : MigrationDb) (n : Nat), files.Nodup →
      (∀ f ∈ files, f ∉ executed → env.readable f = true ∧ env.sqlOk f = true) →
      (∀ f ∈ files, f ∉ executed → f ∉ db.recorded) →
      runPending env executed files db n
        = (.ok (n + (files.filter (fun f => decide (f ∉ executed))).length),
           { ran := db.ran ++ files.filter (fun f => decide (f ∉ executed)),
             recorded := db.recorded ++ files.filter (fun f => decide (f ∉ executed)) }) := by
  intro files
  induction files with
  | nil => intro db n _ _ _; simp [runPending]
  | cons f rest ih =>
    intro db n hnd hok hfresh
    rw [List.nodup_cons] at hnd
    unfold runPending
    by_cases hex : f ∈ executed
    · have h1 : isMigrationExecuted f executed = true := (isMigrationExecuted_iff _ _).2 hex
      simp only [h1, Bool.not_true, Bool.false_eq_true, if_false]
      rw [ih db n hnd.2 (fun g hg => hok g (List.mem_cons_of_mem _ hg))
        (fun g hg => hfresh g (List.mem_cons_of_mem _ hg))]
      simp [List.filter_cons, hex]
    · have h1 : isMigrationExecuted f executed = false := by
        rw [← Bool.not_eq_true, isMigrationExecuted_iff]; exact hex
      obtain ⟨hr, hs⟩ := hok f (List.mem_cons_self _ _) hex
      have hnf : db.recorded.contains f = false := by
        have := hfresh f (List.mem_cons_self _ _) hex
        simpa using this
      have hexec : executeMigration env db f
          = (.ok (), { ran := db.ran ++ [f], recorded := db.recorded ++ [f] }) := by
        unfold executeMigration
        simp only [hr, hs, hnf, Bool.not_true, Bool.false_eq_true, if_false]
      simp only [h1, Bool.not_false, if_true, hexec]
      rw [ih _ (n + 1) hnd.2 (fun g hg => hok g (List.mem_cons_of_mem _ hg))]
      · simp [List.filter_cons, hex, Nat.add_assoc, Nat.add_comm 1]
      · intro g hg hgex
        simp only [List.mem_append, List.mem_singleton, not_or]
        refine ⟨hfresh g (List.mem_cons_of_mem _ hg) hgex, ?_⟩
        rintro rfl
        exact hnd.1 hg

theorem filter_not_mem_congr (files a b : List String) (h : ∀ f, f ∈ a ↔ f ∈ b) :
    files.filter (fun f => decide (f ∉ a)) = files.filter (fun f => decide (f ∉ b)) := by
  apply List.filter_congr
  intro f _
  simp [h f]

/-- C19, as stated, fails.  For the sorted list with the file name
`001_init.sql` twice and nothing recorded, `RunMigrations` runs the script
twice and fails on recording it the second time.  For the files `001_init.sql`
and `002_data.sql` with the SQL of the first failing, it stops with the error
and `002_data.sql`, which is not recorded, is not executed. -/
theorem RunMigrations_counterexample :
    List.Pairwise (fun a b : String => charsLE a.data b.data = true)
        ["001_init.sql", "001_init.sql"]
    ∧ RunMigrations ⟨fun _ => true, fun _ => true⟩ ["001_init.sql", "001_init.sql"] ⟨[], []⟩
        = (.error (.record "001_init.sql"),
           ⟨["001_init.sql", "001_init.sql"], ["001_init.sql"]⟩)
    ∧ RunMigrations ⟨fun _ => true, fun f => f != "001_init.sql"⟩
          ["001_init.sql", "002_data.sql"] ⟨[], []⟩
        = (.error (.exec "001_init.sql"), ⟨[], []⟩) := by
  decide

/-- C19, amended: for a list of migration files without a repeated name and
any list of recorded names, when every file that is not recorded can be read
and its SQL runs without error, `RunMigrations` succeeds; it executes exactly
the files of the list that are not recorded, each once and in the order of the
list (ascending when the list is), and records each; and a second run over
the resulting record executes no file and changes nothing. -/
theorem RunMigrations_pending (env : MigrationEnv) (files executed ran : List String)
    (hnd : files.Nodup)
    (hok : ∀ f ∈ files, f ∉ executed → env.readable f = true ∧ env.sqlOk f = true) :
    RunMigrations env files ⟨ran, executed⟩
        = (.ok (files.filter (fun f => decide (f ∉ executed))).length,
           ⟨ran ++ files.filter (fun f => decide (f ∉ executed)),
            executed ++ files.filter (fun f => decide (f ∉ executed))⟩)
    ∧ (∀ f, f ∈ files.filter (fun f => decide (f ∉ executed)) ↔ f ∈ files ∧ f ∉ executed)
    ∧ (files.filter (fun f => decide (f ∉ executed))).Nodup
    ∧ (files.filter (fun f => decide (f ∉ executed))).Sublist files
    ∧ (∀ R : String → String → Prop, files.Pairwise R →
        (files.filter (fun f => decide (f ∉ executed))).Pairwise R)
    ∧ RunMigrations env files (RunMigrations env files ⟨ran, executed⟩).2
        = (.ok 0, (RunMigrations env files ⟨ran, executed⟩).2) := by
  have hsub : (files.filter (fun f => decide (f ∉ executed))).Sublist files :=
    List.filter_sublist _
  have hrun : RunMigrations env files ⟨ran, executed⟩
      = (.ok (files.filter (fun f => decide (f ∉ executed))).length,
         ⟨ran ++ files.filter (fun f => decide (f ∉ executed)),
          executed ++ files.filter (fun f => decide (f ∉ executed))⟩) := by
    unfold RunMigrations
    have hmem := mem_getExecutedMigrations ⟨ran, executed⟩
    rw [runPending_ok env _ files ⟨ran, executed⟩ 0 hnd
      (fun f hf hne => hok f hf (fun h => hne ((hmem f).2 h)))
      (fun f _ hne h => hne ((hmem f).2 h)),
      filter_not_mem_congr files _ executed hmem]
    simp
  refine ⟨hrun, ?_, hnd.sublist hsub, hsub, fun R hR => hR.sublist hsub, ?_⟩
  · intro f
    simp [List.mem_filter]
  · rw [hrun]
    unfold RunMigrations
    have hmem := mem_getExecutedMigrations
      ⟨ran ++ files.filter (fun f => decide (f ∉ executed)),
       executed ++ files.filter (fun f => decide (f ∉ executed))⟩
    have hall : ∀ f ∈ files,
        f ∈ getExecutedMigrations
          ⟨ran ++ files.filter (fun f => decide (f ∉ executed)),
           executed ++ files.filter (fun f => decide (f ∉ executed))⟩ := by
      intro f hf
      rw [hmem]
      by_cases h : f ∈ executed
      · exact List.mem_append_left _ h
      · exact List.mem_append_right _ (List.mem_filter.2 ⟨hf, by simpa using h⟩)
    rw [runPending_ok env _ files _ 0 hnd (fun f hf hne => absurd (hall f hf) hne)
      (fun f hf hne => absurd (hall f hf) hne)]
    have hnil : files.filter (fun f => decide (f ∉ getExecutedMigrations
        ⟨ran ++ files.filter (fun f => decide (f ∉ executed)),
         executed ++ files.filter (fun f => decide (f ∉ executed))⟩)) = [] := by
      rw [List.filter_eq_nil_iff]
      intro f hf
      simpa using hall f hf
    rw [hnil]
    simp

/-- Three files of which the first is recorded: the other two are run. -/
theorem RunMigrations_pending_witness :
    RunMigrations ⟨fun _ => true, fun _ => true⟩
        ["001_init.sql", "002_data.sql", "003_index.sql"] ⟨["001_init.sql"], ["001_init.sql"]⟩
      = (.ok 2, ⟨["001_init.sql", "002_data.sql", "003_index.sql"],
                 ["001_init.sql", "002_data.sql", "003_index.sql"]⟩) :=
  (RunMigrations_pending ⟨fun _ => true, fun _ => true⟩
    ["001_init.sql", "002_data.sql", "003_index.sql"] ["001_init.sql"] ["001_init.sql"]
    (by decide) (fun _ _ _ => ⟨rfl, rfl⟩)).1

/-! ## The bound `OFFSET` over all of `int` -/

theorem wrap64_range (x : Int) : InInt64 (wrap64 x) := by
  unfold InInt64 wrap64
  have h1 := Int.emod_nonneg (x + 2 ^ 63) (by norm_num : (2 ^ 64 : Int) ≠ 0)
  have h2 := Int.emod_lt_of_pos (x + 2 ^ 63) (by norm_num : (0 : Int) < 2 ^ 64)
  constructor <;> omega

/-- The integers `parseIntParam` hands to the repository are positive values of
a Go `int`, whenever the default is. -/
theorem parseIntParam_range (value : String) (defaultValue : Int) (hd : 0 < defaultValue)
    (hi : InInt64 defaultValue) :
    0 < parseIntParam value defaultValue ∧ InInt64 (parseIntParam value defaultValue) := by
  unfold parseIntParam
  split_ifs with h
  · exact ⟨hd, hi⟩
  · cases hA : Atoi value with
    | none => exact ⟨hd, hi⟩
    | some parsed =>
      simp only
      split_ifs with hp
      · refine ⟨hp, ?_⟩
        unfold Atoi at hA
        split at hA
        · simp at hA
        · simp only at hA
          split_ifs at hA with h1 h2
          all_goals (simp only [Option.some.injEq] at hA; rw [← hA]; assumption)
      · exact ⟨hd, hi⟩

/-- The bound offset is not negative whenever the product fits a Go `int`. -/
theorem plan_offset_nonneg_of_fits (params : ListArticlesParams)
    (hfit : (normPage params.Page - 1) * normLimit params.Limit < 2 ^ 63) :
    0 ≤ (ListArticles.plan params).offset := by
  have hp := normPage_pos params.Page
  have hl := (normLimit_range params.Limit).1
  have h0 : 0 ≤ (normPage params.Page - 1) * normLimit params.Limit :=
    Int.mul_nonneg (by omega) (by omega)
  rw [plan_offset, wrap64_of_fits _ h0 hfit]
  exact h0

/-- C21, at the failing input: the request `page=92233720368547760&limit=100`.
`strconv.Atoi` accepts the page, `parseIntParam` passes it on as a positive
`int`, normalisation leaves page and limit as they are, and the offset
`(page - 1) * limit` wraps to -9223372036854775716; this negative value is
bound as `OFFSET`, the page query is rejected and `ListArticles` fails.  For
the largest `int` as page and limit 2 the bound offset is -4. -/
theorem ListArticles_offset_overflow_eval :
    Atoi "92233720368547760" = some 92233720368547760
    ∧ ArticleHandler.listParams "" "" "92233720368547760" "100"
        = ⟨"", "", 92233720368547760, 100⟩
    ∧ InInt64 (ArticleHandler.listParams "" "" "92233720368547760" "100").Page
    ∧ (ListArticles.plan (ArticleHandler.listParams "" "" "92233720368547760" "100")).Page
        = 92233720368547760
    ∧ (ListArticles.plan (ArticleHandler.listParams "" "" "92233720368547760" "100")).Limit
        = 100
    ∧ (ListArticles.plan (ArticleHandler.listParams "" "" "92233720368547760" "100")).offset
        = -9223372036854775716
    ∧ (ListArticles.plan (ArticleHandler.listParams "" "" "92233720368547760" "100")).pageArgs
        = [Arg.int 100, Arg.int (-9223372036854775716)]
    ∧ ListArticles ⟨[⟨"a1", "Ada"⟩], [⟨"x1", "a1", "Hello", "World", 5⟩], true⟩
          (ArticleHandler.listParams "" "" "92233720368547760" "100")
        = .error (.wrapped "failed to query articles" .negativeOffset)
    ∧ (ListArticles.plan ⟨"", "", 9223372036854775807, 2⟩).offset = -4 := by
  decide

end ArticleApi
